import Mathlib

/-!
Shallow embedding of the family/dependent reconciliation engine of
`src/backend/src/models/families.ts` (the CSV import that cross-references the
Bolsa Família benefit registry with the Sislame school-enrollment registry),
together with proofs settling the specification claims about it.

Conventions of the embedding:
* JS strings are Lean `String`s; all string algorithms work on `String.data`
  (the underlying `List Char`) so that every definition reduces in the kernel.
* `moment` dates are embedded as `SDate` (year/month/day); an invalid
  moment (unparseable date) is `Option.none`.
* The mutable module-level `importReportList` is threaded explicitly as a
  `List ImportReport`; the CSV audit writer (`reason_<cityId>.csv`) is
  threaded as an append-only `List (FamilyItem × String)`.
* Rows read by `csvtojson` are association lists `RawRow` (column → value);
  after the required-column checks they are converted to the structured
  records `FamilyItem` / `SislameItem` that the pipeline accesses.
* The database persistence layer (`certifyFamilyAndDependents`) is an
  external collaborator; the import's observable output is the
  `grantedFamilies` list, the audit rows and the report registry.
-/

namespace FamiliesModel

/-- A calendar date: year, month (1-12), day (1-31). -/
structure SDate where
  y : Nat
  m : Nat
  d : Nat
deriving DecidableEq, Repr, Inhabited

/-- Leap-year test (Gregorian), as used by moment's calendar validation. -/
def isLeap (y : Nat) : Bool :=
  (y % 4 == 0 && y % 100 != 0) || (y % 400 == 0)

/-- Days in a given month of a given year. -/
def daysInMonth (y m : Nat) : Nat :=
  if m == 2 then (if isLeap y then 29 else 28)
  else if m == 4 || m == 6 || m == 9 || m == 11 then 30
  else 31

/-- Split a character list on a separator character.  Kernel-friendly stand-in
for the string splitting used by the date parser. -/
def splitOnChar (sep : Char) : List Char → List (List Char)
  | [] => [[]]
  | c :: cs =>
    let r := splitOnChar sep cs
    if c == sep then [] :: r
    else (c :: r.headD []) :: r.tail

/-- Decimal digit value of a character, `none` for non-digits. -/
def digitVal? (c : Char) : Option Nat :=
  if '0' ≤ c ∧ c ≤ '9' then some (c.toNat - Char.toNat '0') else none

/-- Parse a non-empty all-digit character list as a natural number. -/
def digitsToNat? (cs : List Char) : Option Nat :=
  match cs with
  | [] => none
  | _ =>
    cs.foldl (fun acc c => acc.bind fun n => (digitVal? c).map fun d => n * 10 + d) (some 0)

/-- Embedding of `moment(s, 'DD/MM/YYYY')`: the three slash-separated numeric
fields, validated against the calendar; `none` is moment's invalid date. -/
def parseDateDMY (s : String) : Option SDate :=
  match splitOnChar '/' s.data with
  | [ds, ms, ys] =>
    match digitsToNat? ds, digitsToNat? ms, digitsToNat? ys with
    | some d, some m, some yy =>
      if 1 ≤ m && m ≤ 12 && 1 ≤ d && d ≤ daysInMonth yy m then some ⟨yy, m, d⟩ else none
    | _, _, _ => none
  | _ => none

/-- `true` when the month/day of `a` is strictly before the month/day of `b`
(years ignored). -/
def monthDayBefore (a b : SDate) : Bool :=
  a.m < b.m || (a.m == b.m && a.d < b.d)

/-- Calendar order on dates (`a` not after `b`). -/
def dateLE (a b : SDate) : Bool :=
  a.y < b.y || (a.y == b.y && (monthDayBefore a b || (a.m == b.m && a.d == b.d)))

/-- Embedding of `momentA.diff(momentB, 'years')`: the number of whole years
between the dates, truncated toward zero (as moment truncates). -/
def yearsBetween (a b : SDate) : Int :=
  if dateLE b a then
    (a.y : Int) - (b.y : Int) - (if monthDayBefore a b then 1 else 0)
  else
    -((b.y : Int) - (a.y : Int) - (if monthDayBefore b a then 1 else 0))

/-- `moment().startOf('month')`. -/
def startOfMonth (t : SDate) : SDate := ⟨t.y, t.m, 1⟩

/-- Embedding of the age guard
`moment().startOf('month').diff(moment(raw, 'DD/MM/YYYY'), 'years') < 18`:
an unparseable birthdate yields `NaN < 18 = false` in JS, hence `false` here. -/
def validAge (today : SDate) (birthRaw : String) : Bool :=
  match parseDateDMY birthRaw with
  | some b => yearsBetween (startOfMonth today) b < 18
  | none => false

/-- Diacritic folding for a single character (the Latin accents produced by the
source data), identity elsewhere.  Embeds lodash `deburr` character mapping. -/
def deburrChar : Char → Char
  | 'á' | 'à' | 'â' | 'ã' | 'ä' => 'a'
  | 'é' | 'è' | 'ê' | 'ë' => 'e'
  | 'í' | 'ì' | 'î' | 'ï' => 'i'
  | 'ó' | 'ò' | 'ô' | 'õ' | 'ö' => 'o'
  | 'ú' | 'ù' | 'û' | 'ü' => 'u'
  | 'ç' => 'c'
  | 'ñ' => 'n'
  | 'Á' | 'À' | 'Â' | 'Ã' | 'Ä' => 'A'
  | 'É' | 'È' | 'Ê' | 'Ë' => 'E'
  | 'Í' | 'Ì' | 'Î' | 'Ï' => 'I'
  | 'Ó' | 'Ò' | 'Ô' | 'Õ' | 'Ö' => 'O'
  | 'Ú' | 'Ù' | 'Û' | 'Ü' => 'U'
  | 'Ç' => 'C'
  | 'Ñ' => 'N'
  | c => c

/-- lodash `deburr` on a whole string. -/
def deburrStr (s : String) : String := ⟨s.data.map deburrChar⟩

/-- ASCII uppercase for one character (table form, so it reduces in the
kernel). -/
def upperChar : Char → Char
  | 'a' => 'A' | 'b' => 'B' | 'c' => 'C' | 'd' => 'D' | 'e' => 'E' | 'f' => 'F'
  | 'g' => 'G' | 'h' => 'H' | 'i' => 'I' | 'j' => 'J' | 'k' => 'K' | 'l' => 'L'
  | 'm' => 'M' | 'n' => 'N' | 'o' => 'O' | 'p' => 'P' | 'q' => 'Q' | 'r' => 'R'
  | 's' => 'S' | 't' => 'T' | 'u' => 'U' | 'v' => 'V' | 'w' => 'W' | 'x' => 'X'
  | 'y' => 'Y' | 'z' => 'Z'
  | c => c

/-- Modelled from the spec: the Name Matcher's normalization (the repo's
`utils/string` module is not under `src/`).  §4.1: strip diacritics,
uppercase, collapse whitespace. -/
def normalizeName (s : String) : String :=
  let words := (splitOnChar ' ' ((deburrStr s).data.map upperChar)).filter (fun w => !w.isEmpty)
  ⟨List.intercalate [' '] words⟩

/-- Modelled from the spec: `compareNames` from the repo's `utils/string`
module (not under `src/`).  §4.1: exact equality after normalization; no
fuzzy matching. -/
def compareNames (a b : String) : Bool := normalizeName a == normalizeName b

/-- One row of the Bolsa Família CSV, restricted to the columns the import
logic reads (`TITULAR`, `NISTITULAR`, `DEPENDENTE`, `NISDEPENDEN`,
`DTNASCTIT`, `DTNASCDEP`); the remaining columns (UF, MUNICIPIO, …) are only
copied verbatim into the audit file. -/
structure FamilyItem where
  TITULAR : String := ""
  NISTITULAR : String := ""
  DEPENDENTE : String := ""
  NISDEPENDEN : String := ""
  DTNASCTIT : String := ""
  DTNASCDEP : String := ""
deriving DecidableEq, Repr, Inhabited

/-- One row of the Sislame CSV, restricted to the columns the import logic
reads.  Field names correspond to the deburred keys (`Mãe` → `Mae`,
`Nome Responsável` → `Nome Responsavel`) that the matching code accesses. -/
structure SislameItem where
  aluno : String := ""
  matricula : String := ""
  mae : String := ""
  pai : String := ""
  nomeResponsavel : String := ""
  dataNascimento : String := ""
deriving DecidableEq, Repr, Inhabited

/-- A raw CSV row as produced by `csvtojson`: association list from column
name to cell value. -/
abbrev RawRow := List (String × String)

/-- Read a column of a raw row (`""` when absent, standing for the fields the
code reads off a JS object). -/
def lookupField (row : RawRow) (k : String) : String :=
  ((row.find? (fun p => p.1 == k)).map Prod.snd).getD ""

/-- `Object.keys` of a raw row. -/
def rawKeys (row : RawRow) : List String := row.map Prod.fst

/-- Structured view of a raw Bolsa Família row. -/
def parseRawFamily (row : RawRow) : FamilyItem :=
  { TITULAR := lookupField row "TITULAR"
    NISTITULAR := lookupField row "NISTITULAR"
    DEPENDENTE := lookupField row "DEPENDENTE"
    NISDEPENDEN := lookupField row "NISDEPENDEN"
    DTNASCTIT := lookupField row "DTNASCTIT"
    DTNASCDEP := lookupField row "DTNASCDEP" }

/-- Structured view of a raw Sislame row (original, accented column names). -/
def parseRawSislame (row : RawRow) : SislameItem :=
  { aluno := lookupField row "Aluno"
    matricula := lookupField row "Matricula"
    mae := lookupField row "Mãe"
    pai := lookupField row "Pai"
    nomeResponsavel := lookupField row "Nome Responsável"
    dataNascimento := lookupField row "Data Nascimento" }

/-- `JSON.parse(deburr(JSON.stringify(...)))` on one family row: deburr every
field. -/
def deburrFamilyItem (f : FamilyItem) : FamilyItem :=
  { TITULAR := deburrStr f.TITULAR
    NISTITULAR := deburrStr f.NISTITULAR
    DEPENDENTE := deburrStr f.DEPENDENTE
    NISDEPENDEN := deburrStr f.NISDEPENDEN
    DTNASCTIT := deburrStr f.DTNASCTIT
    DTNASCDEP := deburrStr f.DTNASCDEP }

/-- `JSON.parse(deburr(JSON.stringify(...)))` on one Sislame row: deburr every
field (the accented keys `Mãe`/`Nome Responsável` become `Mae`/
`Nome Responsavel`, which the structured record already reflects). -/
def deburrSislameItem (s : SislameItem) : SislameItem :=
  { aluno := deburrStr s.aluno
    matricula := deburrStr s.matricula
    mae := deburrStr s.mae
    pai := deburrStr s.pai
    nomeResponsavel := deburrStr s.nomeResponsavel
    dataNascimento := deburrStr s.dataNascimento }

/-- lodash `uniqBy` helper: keep elements whose key has not been seen yet. -/
def uniqByAux {α β : Type} [BEq β] (f : α → β) : List β → List α → List α
  | _, [] => []
  | seen, x :: xs =>
    if seen.contains (f x) then uniqByAux f seen xs
    else x :: uniqByAux f (f x :: seen) xs

/-- lodash `uniqBy`: keep the first occurrence of every key, in order. -/
def uniqBy {α β : Type} [BEq β] (l : List α) (f : α → β) : List α :=
  uniqByAux f [] l

/-- The exact-duplicate key of a family row:
`` `${item.NISTITULAR}-${item.NISDEPENDEN}` ``. -/
def famKey (item : FamilyItem) : String :=
  item.NISTITULAR ++ "-" ++ item.NISDEPENDEN

/-- The exact-duplicate key of a Sislame row:
`` `${item['Aluno']}-${item['Matricula']}` ``. -/
def sisKey (s : SislameItem) : String :=
  s.aluno ++ "-" ++ s.matricula

/-- Line 417: remove exact duplicates from the benefit list. -/
def dedupFamily (l : List FamilyItem) : List FamilyItem := uniqBy l famKey

/-- Line 418: remove exact duplicates from the Sislame list. -/
def dedupSislame (l : List SislameItem) : List SislameItem := uniqBy l sisKey

/-- Lines 422-435: the reduce that splits the benefit list into age-valid rows
and rows rejected because the dependent is of age (order-preserving
partition). -/
def filterFamilies (today : SDate) (l : List FamilyItem) :
    List FamilyItem × List FamilyItem :=
  (l.filter (fun item => validAge today item.DTNASCDEP),
   l.filter (fun item => !validAge today item.DTNASCDEP))

/-- Lines 445-450: rows whose `NISDEPENDEN` also occurs at a different index
(split dependents), kept in list order with their repetitions. -/
def duplicatedDependent (l : List FamilyItem) : List FamilyItem :=
  (l.enum.filter (fun p =>
    l.enum.any (fun q =>
      decide (p.1 ≠ q.1) && q.2.NISDEPENDEN == p.2.NISDEPENDEN))).map Prod.snd

/-- The `status` field of an `ImportReport` (string union in the source). -/
inductive ImportStatus
  | idle
  | completed
  | failed
  | readingFiles
  | filteringData
  | saving
  | comparingData
deriving DecidableEq, Repr

/-- The per-city import report (`ImportReport` type of the source; percentages
are embedded as rationals). -/
structure ImportReport where
  status : ImportStatus
  message : Option String := none
  percentage : Option ℚ := none
  cityId : Option Nat := none
  inProgress : Option Bool := none
deriving DecidableEq, Repr

/-- Lines 78-82: `getImportReport` — first stored report of the city, or the
default idle report. -/
def getImportReport (cityId : Nat) (l : List ImportReport) : ImportReport :=
  match l.find? (fun item => item.cityId == some cityId) with
  | some r => r
  | none => { status := .idle, cityId := some cityId, inProgress := some false }

/-- Line 96: the report as stored —
`{ ...importReport, cityId, inProgress }` with `inProgress` defaulted to
`true` when absent. -/
def storedReport (r : ImportReport) (cityId : Nat) : ImportReport :=
  { r with cityId := some cityId, inProgress := some (r.inProgress.getD true) }

/-- Lines 89-97: `updateImportReport` — splice out the first stored report of
the city and push the new one (with `cityId` set and `inProgress` defaulted to
`true`). -/
def updateImportReport (r : ImportReport) (cityId : Nat) (l : List ImportReport) :
    List ImportReport :=
  let l' :=
    match l.findIdx? (fun item => item.cityId == some cityId) with
    | some i => l.eraseIdx i
    | none => l
  l' ++ [storedReport r cityId]

/-- A dependent record as stored on a granted family.  Modelled from the spec:
`parseFamilyAndSislameItems` lives in the dependents module, which is not
under `src/`; per §3 the record carries the dependent identity fields of the
benefit row it is parsed from (the enrollment row contributes no identity
fields relevant to the claims). -/
structure Dependent where
  nis : String
  name : String
  birthday : Option SDate
deriving DecidableEq, Repr

/-- Modelled from the spec: `parseFamilyAndSislameItems` (dependents module,
not under `src/`) merges a benefit row and an enrollment row into the
dependent record attributed to a Grant. -/
def parseFamilyAndSislameItems (f : FamilyItem) (_s : SislameItem) : Dependent :=
  { nis := f.NISDEPENDEN
    name := f.DEPENDENTE
    birthday := parseDateDMY f.DTNASCDEP }

/-- A granted family aggregate (the fields of `Family` that the import
produces). -/
structure Family where
  responsibleNis : String
  responsibleName : String
  responsibleBirthday : Option SDate
  responsibleMotherName : String
  code : String
  groupName : String
  cityId : Nat
  dependents : List Dependent := []
deriving DecidableEq, Repr

/-- Modelled from the spec: `getFamilyGroupByCode(0).key` (the constraints
util is not under `src/`); a fixed group key, irrelevant to every claim. -/
def familyGroupKeyZero : String := "cad"

/-- Lines 328-338: `parseFamilyItem` — convert a CSV family row to a DB
family. -/
def parseFamilyItem (family : FamilyItem) (cityId : Nat) : Family :=
  { responsibleNis := family.NISTITULAR
    responsibleName := family.TITULAR
    responsibleBirthday := parseDateDMY family.DTNASCTIT
    responsibleMotherName := ""
    code := ""
    groupName := familyGroupKeyZero
    cityId := cityId }

/-- Rejection reason of the benefit-side age filter (line 429). -/
def ofAgeMsg : String := "Depedente maior de idade"

/-- Rejection reason when the Sislame birthdate fails the age check (lines
486, 556). -/
def sislameOverageMsg : String := "Dependente não é menor de idade no Sislame"

/-- Rejection reason when a student with the same name but a different
guardian is found (lines 510-511).  A fixed string: it does not name the
guardian. -/
def homonymMsg : String :=
  "Encontrado aluno com mesmo nome no Sislame, mas responsável diferente. Atualizar Sislame ou é um homônimo"

/-- Rejection reason when the dependent is not found in Sislame (lines 515,
544). -/
def notInSislameMsg : String := "Dependente não está no Sislame"

/-- Rejection reason for a duplicate-group member losing to another guardian
(line 579). -/
def linkedToOtherMsg (who : String) : String :=
  "Dependente está vinculado à outra pessoa (" ++ who ++ ")"

/-- The state threaded through the comparison loops: the accepted grant list,
the audit rows written to the reason CSV (in write order) and the report
registry. -/
structure PipeState where
  granted : List Family
  audit : List (FamilyItem × String)
  reports : List ImportReport
deriving Repr

/-- Replace the element at an index by applying `g` (used for the
`grantedFamilies[alreadyOnListIndex] = ...` update). -/
def modifyIdx {α : Type} (l : List α) (i : Nat) (g : α → α) : List α :=
  match l, i with
  | [], _ => []
  | x :: xs, 0 => g x :: xs
  | x :: xs, n + 1 => x :: modifyIdx xs n g

/-- Lines 490-501 / 559-574: add a dependent to the grant list — append a new
family (parsed from `sourceRow`) when no grant has `responsibleNis` equal to
`matchNis`, otherwise append the dependent to the existing grant. -/
def pushDependent (cityId : Nat) (sourceRow : FamilyItem) (dep : Dependent)
    (matchNis : String) (granted : List Family) : List Family :=
  match granted.findIdx? (fun fam => fam.responsibleNis == matchNis) with
  | none => granted ++ [{ parseFamilyItem sourceRow cityId with dependents := [dep] }]
  | some i => modifyIdx granted i (fun fam => { fam with dependents := fam.dependents ++ [dep] })

/-- Lines 472-479: the full cross-reference criterion — student name matches
the dependent and one of mother/father/designated-responsible matches the
guardian. -/
def sislameMatches (familyItem : FamilyItem) (s : SislameItem) : Bool :=
  compareNames s.aluno familyItem.DEPENDENTE &&
    (compareNames s.mae familyItem.TITULAR ||
     compareNames s.pai familyItem.TITULAR ||
     compareNames s.nomeResponsavel familyItem.TITULAR)

/-- Lines 462-517, one iteration of the main comparison loop, for the row at
position `familyIndex` of the deduplicated pool.  Note the source reads
`originalFamilyData[familyIndex]` — the pre-deburr age-filtered list — with
the index of the deduplicated list. -/
def mainStep (today : SDate) (cityId : Nat) (origFam : List FamilyItem)
    (origSis : List SislameItem) (sislameData : List SislameItem) (famCount : Nat)
    (st : PipeState) (familyIndex : Nat) (familyItem : FamilyItem) : PipeState :=
  let reports := updateImportReport
    { status := .comparingData, percentage := some (((familyIndex : ℚ) + 1) / (famCount : ℚ)) }
    cityId st.reports
  let st := { st with reports := reports }
  match sislameData.findIdx? (sislameMatches familyItem) with
  | some sislameIndex =>
    let sislameItem := sislameData.getD sislameIndex default
    if !validAge today sislameItem.dataNascimento then
      { st with audit := st.audit ++ [(familyItem, sislameOverageMsg)] }
    else
      let dependent := parseFamilyAndSislameItems (origFam.getD familyIndex default)
        (origSis.getD sislameIndex default)
      { st with granted := (pushDependent cityId (origFam.getD familyIndex default) dependent
          familyItem.NISTITULAR st.granted) }
  | none =>
    match sislameData.find? (fun s => compareNames s.aluno familyItem.DEPENDENTE) with
    | some _ => { st with audit := st.audit ++ [(familyItem, homonymMsg)] }
    | none => { st with audit := st.audit ++ [(familyItem, notInSislameMsg)] }

/-- The `for (const familyIndex in familyData)` loop, with its running
index. -/
def mainLoop (today : SDate) (cityId : Nat) (origFam : List FamilyItem)
    (origSis : List SislameItem) (sislameData : List SislameItem) (famCount : Nat)
    (i : Nat) : List FamilyItem → PipeState → PipeState
  | [], st => st
  | f :: fs, st =>
    mainLoop today cityId origFam origSis sislameData famCount (i + 1) fs
      (mainStep today cityId origFam origSis sislameData famCount st i f)

/-- The guardian-role keys tried by the duplicate-resolution pass. -/
inductive ParentKey
  | mae
  | nomeResponsavel
  | pai
deriving DecidableEq, Repr

/-- Read the guardian name of a Sislame row for a role key. -/
def SislameItem.parentField (s : SislameItem) : ParentKey → String
  | .mae => s.mae
  | .nomeResponsavel => s.nomeResponsavel
  | .pai => s.pai

/-- Line 527: the fixed priority order — mother, then designated responsible,
then father. -/
def sislamePossibleKeys : List ParentKey := [.mae, .nomeResponsavel, .pai]

/-- Lines 530-534: the Sislame search predicate for one role key — student
name matches the group's dependent and some claimant's guardian matches the
row's name for that role. -/
def rolePred (head : FamilyItem) (group : List FamilyItem) (k : ParentKey)
    (s : SislameItem) : Bool :=
  compareNames s.aluno head.DEPENDENTE &&
    group.any (fun f => compareNames (s.parentField k) f.TITULAR)

/-- Lines 528-540: try the role keys in priority order, returning the first
role with a Sislame match together with the matched index. -/
def findParentMatchAux (sislameData : List SislameItem) (head : FamilyItem)
    (group : List FamilyItem) : List ParentKey → Option (ParentKey × Nat)
  | [] => none
  | k :: ks =>
    match sislameData.findIdx? (rolePred head group k) with
    | some i => some (k, i)
    | none => findParentMatchAux sislameData head group ks

/-- The role search over the fixed priority list. -/
def findParentMatch (sislameData : List SislameItem) (head : FamilyItem)
    (group : List FamilyItem) : Option (ParentKey × Nat) :=
  findParentMatchAux sislameData head group sislamePossibleKeys

/-- Lines 548-583, the body run for each member of a duplicate group once a
role and Sislame row were found: matching claimants are granted (subject to
the Sislame-side age check, with the grant row re-read from the pre-deburr
list by guardian NIS), non-matching claimants are rejected citing the Sislame
row's guardian name for the role. -/
def dupMemberStep (today : SDate) (cityId : Nat) (origFam : List FamilyItem)
    (origSis : List SislameItem) (sislameIndex : Nat) (s : SislameItem) (k : ParentKey)
    (st : PipeState) (f : FamilyItem) : PipeState :=
  if compareNames (s.parentField k) f.TITULAR then
    if !validAge today s.dataNascimento then
      { st with audit := st.audit ++ [(f, sislameOverageMsg)] }
    else
      let originalFamilyItem :=
        (origFam.find? (fun item => item.NISTITULAR == f.NISTITULAR)).getD default
      let dependent := parseFamilyAndSislameItems originalFamilyItem
        (origSis.getD sislameIndex default)
      { st with granted := (pushDependent cityId originalFamilyItem dependent
          f.NISTITULAR st.granted) }
  else
    { st with audit := st.audit ++ [(f, linkedToOtherMsg (s.parentField k))] }

/-- The rejection record (if any) that `dupMemberStep` writes for one group
member: `none` when the member matches the found role and passes the
enrollment-side age check (it is granted instead); the Sislame-overage reason
when it matches but fails the age check; otherwise the linked-to-other-person
reason citing the enrollment row's guardian name for the role. -/
def dupRejectMsg (today : SDate) (s : SislameItem) (k : ParentKey)
    (f : FamilyItem) : Option (FamilyItem × String) :=
  if compareNames (s.parentField k) f.TITULAR then
    (if validAge today s.dataNascimento then none else some (f, sislameOverageMsg))
  else some (f, linkedToOtherMsg (s.parentField k))

/-- Whether a group member is granted by `dupMemberStep`: its guardian name
matches the enrollment row's name for the found role and the enrollment-side
age check passes. -/
def dupAccepts (today : SDate) (s : SislameItem) (k : ParentKey)
    (f : FamilyItem) : Bool :=
  compareNames (s.parentField k) f.TITULAR && validAge today s.dataNascimento

/-- Lines 521-584: resolve one duplicate group (`head` is
`duplicatedItens[0]`). -/
def processGroup (today : SDate) (cityId : Nat) (origFam : List FamilyItem)
    (origSis : List SislameItem) (sislameData : List SislameItem) (head : FamilyItem)
    (group : List FamilyItem) (st : PipeState) : PipeState :=
  match findParentMatch sislameData head group with
  | none =>
    { st with audit := st.audit ++ group.map (fun f => (f, notInSislameMsg)) }
  | some (k, sislameIndex) =>
    let s := sislameData.getD sislameIndex default
    group.foldl (dupMemberStep today cityId origFam origSis sislameIndex s k) st

/-- Lines 520-588: the `while (duplicatedDependent.length > 0)` loop — take
the group of the head's `NISDEPENDEN`, resolve it, drop it from the pending
list.  (The source filters the whole list; since the head always belongs to
its own group, filtering the tail is the same list.)  Structural recursion on
an explicit bound: every iteration removes at least the head, so a bound of
`dup.length` is never exhausted. -/
def dupPassAux (today : SDate) (cityId : Nat) (origFam : List FamilyItem)
    (origSis : List SislameItem) (sislameData : List SislameItem) :
    Nat → List FamilyItem → PipeState → PipeState
  | _, [], st => st
  | 0, _ :: _, st => st
  | fuel + 1, d0 :: tl, st =>
    let group := (d0 :: tl).filter (fun x => x.NISDEPENDEN == d0.NISDEPENDEN)
    let st' := processGroup today cityId origFam origSis sislameData d0 group st
    dupPassAux today cityId origFam origSis sislameData fuel
      (tl.filter (fun x => !(x.NISDEPENDEN == d0.NISDEPENDEN))) st'

/-- The duplicate-resolution loop, started with a sufficient bound. -/
def dupPass (today : SDate) (cityId : Nat) (origFam : List FamilyItem)
    (origSis : List SislameItem) (sislameData : List SislameItem)
    (dup : List FamilyItem) (st : PipeState) : PipeState :=
  dupPassAux today cityId origFam origSis sislameData dup.length dup st

/-- Line 347: the required (accented, pre-deburr) Sislame columns. -/
def requiredSislameKeys : List String :=
  ["Aluno", "Mãe", "Pai", "Nome Responsável", "Data Nascimento"]

/-- Lines 366-373: the required Bolsa Família columns. -/
def requiredFamilyKeys : List String :=
  ["DEPENDENTE", "NISDEPENDEN", "NISTITULAR", "TITULAR", "DTNASCTIT", "DTNASCDEP"]

/-- The required keys absent from a row
(`requiredKeys.filter(key => availableKeys.indexOf(key) < 0)`). -/
def missingKeys (required : List String) (row : RawRow) : List String :=
  required.filter (fun k => !((rawKeys row).contains k))

/-- The schema-error message built at lines 351-353 / 377-379. -/
def schemaErrorMsg (table : String) (notFound available : List String) : String :=
  "Na tabela do " ++ table ++ ", as seguintes colunas não foram encontradas: " ++
    String.intercalate ", " notFound ++ " --- Disponíveis: " ++
    String.intercalate ", " available

/-- Shared body of the two required-column checks: `none` on success, the
thrown message on failure (an empty dataset throws without touching the
report; missing columns set the report to failed first). -/
def checkRequiredData (table emptyMsg : String) (required : List String)
    (firstRow : Option RawRow) (cityId : Nat) (reports : List ImportReport) :
    Option String × List ImportReport :=
  match firstRow with
  | none => (some emptyMsg, reports)
  | some row =>
    let notFound := missingKeys required row
    if notFound.isEmpty then (none, reports)
    else
      let message := schemaErrorMsg table notFound (rawKeys row)
      (some message,
        updateImportReport { status := .failed, message := some message, inProgress := some false }
          cityId reports)

/-- Lines 345-357: `checkRequiredSislameData`. -/
def checkRequiredSislameData (firstRow : Option RawRow) (cityId : Nat)
    (reports : List ImportReport) : Option String × List ImportReport :=
  checkRequiredData "Sislame" "Nenhum dado na tabela do Sislame" requiredSislameKeys
    firstRow cityId reports

/-- Lines 364-383: `checkRequiredFamilyData`. -/
def checkRequiredFamilyData (firstRow : Option RawRow) (cityId : Nat)
    (reports : List ImportReport) : Option String × List ImportReport :=
  checkRequiredData "Bolsa Família" "Nenhum dado na tabela do Bolsa Família" requiredFamilyKeys
    firstRow cityId reports

/-- The observable outcome of `importFamilyFromCadAndSislameCSV`: the granted
family aggregates handed to the persistence adapter, the audit rows in write
order, the final report registry, and the thrown error (if any). -/
structure ImportOutput where
  granted : List Family
  audit : List (FamilyItem × String)
  reports : List ImportReport
  error : Option String
deriving Repr

/-- Structured view of the raw benefit dataset. -/
def familyStructured (famRaw : List RawRow) : List FamilyItem :=
  famRaw.map parseRawFamily

/-- Structured view of the raw Sislame dataset. -/
def sislameStructured (sisRaw : List RawRow) : List SislameItem :=
  sisRaw.map parseRawSislame

/-- The age-valid benefit rows (`originalFamilyData` after lines 417-435):
exact-deduplicated, age-filtered, before diacritic stripping. -/
def familyPoolPreDeburr (today : SDate) (origFam0 : List FamilyItem) : List FamilyItem :=
  (filterFamilies today (dedupFamily origFam0)).1

/-- The rows removed by the age filter (`removedFamilies`). -/
def removedFamiliesOf (today : SDate) (origFam0 : List FamilyItem) : List FamilyItem :=
  (filterFamilies today (dedupFamily origFam0)).2

/-- `familyData` after line 440: the age-valid rows, diacritics stripped. -/
def familyPoolDeburred (today : SDate) (origFam0 : List FamilyItem) : List FamilyItem :=
  (familyPoolPreDeburr today origFam0).map deburrFamilyItem

/-- `sislameData` after line 441: deduplicated Sislame rows, diacritics
stripped. -/
def sislamePoolDeburred (origSis0 : List SislameItem) : List SislameItem :=
  (dedupSislame origSis0).map deburrSislameItem

/-- `duplicatedDependent` of the deburred pool: the split-dependent rows
routed to the duplicate-resolution pass. -/
def splitRows (today : SDate) (origFam0 : List FamilyItem) : List FamilyItem :=
  duplicatedDependent (familyPoolDeburred today origFam0)

/-- `familyData` after line 451: the main unique-candidates pool processed by
the cross-reference resolver (first row per dependent NIS). -/
def mainPool (today : SDate) (origFam0 : List FamilyItem) : List FamilyItem :=
  uniqBy (familyPoolDeburred today origFam0) (fun item => item.NISDEPENDEN)

/-- Lines 417-588 after the schema checks: exact dedup, age filter (audit of
the removed rows), deburr, split-dependent detection, dedup by dependent NIS,
the main comparison loop, then the duplicate-resolution pass. -/
def importCore (today : SDate) (cityId : Nat) (origFam0 : List FamilyItem)
    (origSis0 : List SislameItem) (reports : List ImportReport) : PipeState :=
  let audit0 := (removedFamiliesOf today origFam0).map (fun r => (r, ofAgeMsg))
  let st0 : PipeState := { granted := [], audit := audit0, reports := reports }
  let st1 := mainLoop today cityId (familyPoolPreDeburr today origFam0)
    (dedupSislame origSis0) (sislamePoolDeburred origSis0)
    (mainPool today origFam0).length 0 (mainPool today origFam0) st0
  dupPass today cityId (familyPoolPreDeburr today origFam0) (dedupSislame origSis0)
    (sislamePoolDeburred origSis0) (splitRows today origFam0) st1

/-- The Sislame required-column check passes (first row exists and has every
required column). -/
def sislameSchemaOk (sisRaw : List RawRow) : Bool :=
  match sisRaw.head? with
  | none => false
  | some row => (missingKeys requiredSislameKeys row).isEmpty

/-- The Bolsa Família required-column check passes. -/
def familySchemaOk (famRaw : List RawRow) : Bool :=
  match famRaw.head? with
  | none => false
  | some row => (missingKeys requiredFamilyKeys row).isEmpty

/-- Lines 391-624: `importFamilyFromCadAndSislameCSV` on already-read raw
rows.  The database saving loop is the external persistence adapter; on the
non-throwing path the report ends `completed`. -/
def runImport (today : SDate) (cityId : Nat) (famRaw sisRaw : List RawRow)
    (reports0 : List ImportReport) : ImportOutput :=
  let reports := updateImportReport { status := .readingFiles } cityId reports0
  let reports := updateImportReport { status := .filteringData } cityId reports
  match checkRequiredSislameData sisRaw.head? cityId reports with
  | (some msg, reportsE) =>
    { granted := [], audit := [], reports := reportsE, error := some msg }
  | (none, reports) =>
    match checkRequiredFamilyData famRaw.head? cityId reports with
    | (some msg, reportsE) =>
      { granted := [], audit := [], reports := reportsE, error := some msg }
    | (none, reports) =>
      let st := importCore today cityId (familyStructured famRaw) (sislameStructured sisRaw)
        reports
      let reportsF := updateImportReport { status := .completed, inProgress := some false }
        cityId st.reports
      { granted := st.granted, audit := st.audit, reports := reportsF, error := none }

/-- Total number of dependent records across a grant list (each accepted
outcome appends exactly one dependent record somewhere in the list). -/
def depCount (granted : List Family) : Nat :=
  (granted.map (fun fam => fam.dependents.length)).sum

/-- All dependent records of a grant list, in list order. -/
def allDeps (granted : List Family) : List Dependent :=
  (granted.map (fun fam => fam.dependents)).flatten

/-- The number of distinct dependent identities among the split-dependent
rows (one per duplicate group). -/
def splitIdCount (l : List FamilyItem) : Nat :=
  ((duplicatedDependent l).map (fun item => item.NISDEPENDEN)).toFinset.card

/-! ### Concrete inputs used by the counterexamples and witnesses -/

/-- A fixed processing date for the concrete scenarios. -/
def today0 : SDate := ⟨2026, 10, 11⟩

/-- Benefit row: guardian ANA (NIS 1) claims dependent JOAO (NIS 9). -/
def anaRow : RawRow :=
  [("TITULAR", "ANA"), ("NISTITULAR", "1"), ("DEPENDENTE", "JOAO"),
   ("NISDEPENDEN", "9"), ("DTNASCTIT", "01/01/1980"), ("DTNASCDEP", "01/01/2015")]

/-- Benefit row: guardian BEA (NIS 2) claims the same dependent JOAO (NIS 9). -/
def beaRow : RawRow :=
  [("TITULAR", "BEA"), ("NISTITULAR", "2"), ("DEPENDENTE", "JOAO"),
   ("NISDEPENDEN", "9"), ("DTNASCTIT", "02/02/1982"), ("DTNASCDEP", "01/01/2015")]

/-- Enrollment row: student JOAO with mother BEA and designated responsible
ANA. -/
def sisJoaoRow : RawRow :=
  [("Aluno", "JOAO"), ("Matricula", "M1"), ("Mãe", "BEA"), ("Pai", ""),
   ("Nome Responsável", "ANA"), ("Data Nascimento", "01/01/2015")]

/-- Benefit row: guardian MARIA SILVA (NIS 1) claims dependent JOAO SILVA
(NIS 9). -/
def mariaSilvaRow : RawRow :=
  [("TITULAR", "MARIA SILVA"), ("NISTITULAR", "1"), ("DEPENDENTE", "JOAO SILVA"),
   ("NISDEPENDEN", "9"), ("DTNASCTIT", "01/01/1980"), ("DTNASCDEP", "01/01/2011")]

/-- Enrollment row: student JOAO SILVA, mother ANA SILVA (name mismatch with
the benefit guardian). -/
def sisAnaSilvaRow : RawRow :=
  [("Aluno", "JOAO SILVA"), ("Matricula", "M1"), ("Mãe", "ANA SILVA"), ("Pai", ""),
   ("Nome Responsável", ""), ("Data Nascimento", "01/01/2011")]

/-- Benefit row: guardian named MARIA with NIS 1, claiming dependent NIS 9. -/
def mariaRow1 : RawRow :=
  [("TITULAR", "MARIA"), ("NISTITULAR", "1"), ("DEPENDENTE", "JOAO"),
   ("NISDEPENDEN", "9"), ("DTNASCTIT", "01/01/1980"), ("DTNASCDEP", "01/01/2015")]

/-- Benefit row: a different guardian, also named MARIA, with NIS 2, claiming
the same dependent NIS 9. -/
def mariaRow2 : RawRow :=
  [("TITULAR", "MARIA"), ("NISTITULAR", "2"), ("DEPENDENTE", "JOAO"),
   ("NISDEPENDEN", "9"), ("DTNASCTIT", "02/02/1982"), ("DTNASCDEP", "01/01/2015")]

/-- Enrollment row: student JOAO with mother MARIA. -/
def sisMariaRow : RawRow :=
  [("Aluno", "JOAO"), ("Matricula", "M1"), ("Mãe", "MARIA"), ("Pai", ""),
   ("Nome Responsável", ""), ("Data Nascimento", "01/01/2015")]

/-- Benefit row: guardian MARIA (NIS 2) with an of-age dependent VELHO
(NIS 77) — removed by the age filter. -/
def velhoRow : RawRow :=
  [("TITULAR", "MARIA"), ("NISTITULAR", "2"), ("DEPENDENTE", "VELHO"),
   ("NISDEPENDEN", "77"), ("DTNASCTIT", "02/02/1982"), ("DTNASCDEP", "01/01/2000")]

/-- Benefit row: guardian MARIA (NIS 2) with another young dependent PEDRO
(NIS 5). -/
def pedroRow : RawRow :=
  [("TITULAR", "MARIA"), ("NISTITULAR", "2"), ("DEPENDENTE", "PEDRO"),
   ("NISDEPENDEN", "5"), ("DTNASCTIT", "02/02/1982"), ("DTNASCDEP", "01/01/2014")]

/-- A Sislame first row missing most required columns. -/
def badSisRow : RawRow := [("Aluno", "JOAO"), ("Matricula", "M1")]

/-- The deburred, age-filtered, exact-deduplicated benefit pool of the
two-claimant scenario (the list in which split dependents are detected). -/
def splitScenarioPool : List FamilyItem :=
  ((filterFamilies today0 (dedupFamily (familyStructured [anaRow, beaRow]))).1).map
    deburrFamilyItem

/-! ### Report-registry lemmas -/

/-- Erasing the element found by `findIdx?` removes exactly one satisfying
element. -/
theorem countP_eraseIdx_findIdx? {α : Type} (p : α → Bool) :
    ∀ (l : List α) (i : Nat), l.findIdx? p = some i →
      (l.eraseIdx i).countP p + 1 = l.countP p := by
  intro l
  induction l with
  | nil => intro i h; simp [List.findIdx?] at h
  | cons x xs ih =>
    intro i h
    rw [List.findIdx?_cons] at h
    by_cases hx : p x
    · simp only [hx, if_true] at h
      cases h
      simp [List.eraseIdx, List.countP_cons_of_pos _ _ hx]
    · simp only [hx, if_false, Bool.false_eq_true, List.findIdx?_succ] at h
      rcases Option.map_eq_some'.mp h with ⟨j, hj, hij⟩
      subst hij
      simp only [List.eraseIdx_cons_succ, List.countP_cons_of_neg _ _ hx]
      exact ih j hj

/-- After `updateImportReport`, the registry holds exactly one report for the
city (provided it held at most one before). -/
theorem countP_updateImportReport (cityId : Nat) (r : ImportReport)
    (l : List ImportReport)
    (h : l.countP (fun it => it.cityId == some cityId) ≤ 1) :
    (updateImportReport r cityId l).countP (fun it => it.cityId == some cityId) = 1 := by
  have hone : List.countP (fun it => it.cityId == some cityId) [storedReport r cityId] = 1 := by
    simp [storedReport]
  unfold updateImportReport
  cases hIdx : l.findIdx? (fun it => it.cityId == some cityId) with
  | none =>
    have hz : l.countP (fun it => it.cityId == some cityId) = 0 := by
      rw [List.countP_eq_zero]
      intro a ha
      have := List.findIdx?_eq_none_iff.mp hIdx a ha
      simp [this]
    simp [hIdx, List.countP_append, hz, hone]
  | some i =>
    have hc := countP_eraseIdx_findIdx? (fun it => it.cityId == some cityId) l i hIdx
    have hz : (l.eraseIdx i).countP (fun it => it.cityId == some cityId) = 0 := by omega
    simp [hIdx, List.countP_append, hz, hone]

/-- Reading the registry right after an update returns exactly the new report
(with the city id set and `inProgress` defaulted), independently of the
previous report — provided the registry held at most one report for the
city. -/
theorem getImportReport_update (cityId : Nat) (r : ImportReport)
    (l : List ImportReport)
    (h : l.countP (fun it => it.cityId == some cityId) ≤ 1) :
    getImportReport cityId (updateImportReport r cityId l) = storedReport r cityId := by
  have key : ∀ l' : List ImportReport,
      l'.countP (fun it => it.cityId == some cityId) = 0 →
      (l' ++ [storedReport r cityId]).find? (fun it => it.cityId == some cityId) =
        some (storedReport r cityId) := by
    intro l' hz
    have hnone : l'.find? (fun it => it.cityId == some cityId) = none := by
      rw [List.find?_eq_none]
      intro a ha
      have := (List.countP_eq_zero.mp hz) a ha
      simpa using this
    rw [List.find?_append, hnone]
    simp [storedReport]
  unfold updateImportReport getImportReport
  cases hIdx : l.findIdx? (fun it => it.cityId == some cityId) with
  | none =>
    have hz : l.countP (fun it => it.cityId == some cityId) = 0 := by
      rw [List.countP_eq_zero]
      intro a ha
      have := List.findIdx?_eq_none_iff.mp hIdx a ha
      simp [this]
    rw [key l hz]
  | some i =>
    have hc := countP_eraseIdx_findIdx? (fun it => it.cityId == some cityId) l i hIdx
    have hz : (l.eraseIdx i).countP (fun it => it.cityId == some cityId) = 0 := by omega
    rw [key (l.eraseIdx i) hz]

/-! ### uniqBy lemmas -/

/-- Membership in the `uniqBy` accumulator: `x` survives iff its key is not
in `seen` and `x` is the first element of the list carrying its key. -/
theorem mem_uniqByAux {α β : Type} [BEq β] [LawfulBEq β] (f : α → β) :
    ∀ (l : List α) (seen : List β) (x : α),
      x ∈ uniqByAux f seen l ↔
        (seen.contains (f x) = false ∧ l.find? (fun y => f y == f x) = some x) := by
  intro l
  induction l with
  | nil =>
    intro seen x
    simp [uniqByAux]
  | cons y ys ih =>
    intro seen x
    by_cases hk : (f y == f x) = true
    · have hky : f y = f x := eq_of_beq hk
      by_cases hy : seen.contains (f y) = true
      · have hx : seen.contains (f x) = true := hky ▸ hy
        rw [uniqByAux, if_pos hy, ih]
        constructor
        · rintro ⟨hc, hrest⟩
          rw [hx] at hc
          cases hc
        · rintro ⟨hc, hrest⟩
          rw [hx] at hc
          cases hc
      · have hx : seen.contains (f x) = false := by
          rw [← hky]
          exact Bool.eq_false_iff.mpr hy
        have hcc : (f y :: seen).contains (f x) = true := by
          rw [List.contains_cons]
          have hbx : (f x == f y) = true := beq_of_eq hky.symm
          rw [hbx]
          rfl
        have hfindy : List.find? (fun z => f z == f x) (y :: ys) = some y :=
          List.find?_cons_of_pos ys hk
        rw [uniqByAux, if_neg hy]
        rw [hfindy]
        constructor
        · intro hmem
          rcases List.mem_cons.mp hmem with rfl | hmem2
          · exact ⟨hx, rfl⟩
          · rcases (ih _ _).mp hmem2 with ⟨hc, hrest⟩
            rw [hcc] at hc
            cases hc
        · rintro ⟨hc2, hyx⟩
          have hxy : y = x := Option.some.inj hyx
          rw [hxy]
          exact List.mem_cons_self _ _
    · have hne : f y ≠ f x := fun h => hk (beq_of_eq h)
      have hxy : x ≠ y := fun h => hne (h ▸ rfl)
      have hfind : (y :: ys).find? (fun z => f z == f x) = ys.find? (fun z => f z == f x) :=
        List.find?_cons_of_neg _ (by simp [hk])
      have hccx : (f y :: seen).contains (f x) = seen.contains (f x) := by
        rw [List.contains_cons]
        have hbx : (f x == f y) = false := by
          rw [beq_eq_false_iff_ne]
          exact fun h => hne h.symm
        rw [hbx]
        rfl
      by_cases hy : seen.contains (f y) = true
      · rw [uniqByAux, if_pos hy, ih, hfind]
      · rw [uniqByAux, if_neg hy]
        rw [hfind]
        constructor
        · intro hmem
          rcases List.mem_cons.mp hmem with rfl | hmem2
          · exact absurd rfl hxy
          · rcases (ih _ _).mp hmem2 with ⟨hc, hrest⟩
            rw [hccx] at hc
            exact ⟨hc, hrest⟩
        · rintro ⟨hc, hrest⟩
          right
          exact (ih _ _).mpr ⟨by rw [hccx]; exact hc, hrest⟩

/-- `uniqBy` keeps exactly the first occurrence of every key: `x` is in the
result iff the first element of `l` bearing `x`'s key is `x` itself. -/
theorem mem_uniqBy {α β : Type} [BEq β] [LawfulBEq β] (f : α → β) (l : List α) (x : α) :
    x ∈ uniqBy l f ↔ l.find? (fun y => f y == f x) = some x := by
  rw [uniqBy, mem_uniqByAux]
  have hc : ([] : List β).contains (f x) = false := rfl
  rw [hc]
  simp

/-- Having a second element satisfying `p` at a position other than `i` is
the same as `countP p` being at least two (given position `i` satisfies
`p`). -/
theorem two_le_countP_iff_exists_other {α : Type} (p : α → Bool) :
    ∀ (l : List α) (i : Nat) (r : α), l.get? i = some r → p r = true →
      (2 ≤ l.countP p ↔ ∃ j q, j ≠ i ∧ l.get? j = some q ∧ p q = true) := by
  intro l
  induction l with
  | nil =>
    intro i r hi
    simp at hi
  | cons x xs ih =>
    intro i r hi hpr
    cases i with
    | zero =>
      have hx : x = r := Option.some.inj hi
      subst hx
      rw [List.countP_cons_of_pos _ _ hpr]
      constructor
      · intro h2
        have h1 : 0 < xs.countP p := by omega
        rcases List.countP_pos_iff.mp h1 with ⟨q, hq, hpq⟩
        rcases List.get?_of_mem hq with ⟨k, hk⟩
        exact ⟨k + 1, q, by omega, hk, hpq⟩
      · rintro ⟨j, q, hji, hj, hpq⟩
        cases j with
        | zero => exact absurd rfl hji
        | succ k =>
          have hqmem : q ∈ xs := List.get?_mem hj
          have h1 : 0 < xs.countP p := List.countP_pos_iff.mpr ⟨q, hqmem, hpq⟩
          omega
    | succ k =>
      have hk : xs.get? k = some r := hi
      by_cases hpx : p x = true
      · rw [List.countP_cons_of_pos _ _ hpx]
        have hrmem : r ∈ xs := List.get?_mem hk
        have h1 : 0 < xs.countP p := List.countP_pos_iff.mpr ⟨r, hrmem, hpr⟩
        constructor
        · intro h2
          exact ⟨0, x, by omega, rfl, hpx⟩
        · intro h2
          omega
      · rw [List.countP_cons_of_neg _ _ (by simpa using hpx)]
        rw [ih k r hk hpr]
        constructor
        · rintro ⟨j, q, hji, hj, hpq⟩
          exact ⟨j + 1, q, by omega, hj, hpq⟩
        · rintro ⟨j, q, hji, hj, hpq⟩
          cases j with
          | zero =>
            have : q = x := by
              exact (Option.some.inj hj).symm
            rw [this] at hpq
            exact absurd hpq hpx
          | succ j2 =>
            exact ⟨j2, q, by omega, hj, hpq⟩

/-- The split-dependent detector (lines 445-450) keeps exactly the rows whose
`NISDEPENDEN` occurs in at least two rows of the list. -/
theorem duplicatedDependent_eq_filter (l : List FamilyItem) :
    duplicatedDependent l =
      l.filter (fun r => decide (2 ≤ l.countP (fun y => y.NISDEPENDEN == r.NISDEPENDEN))) := by
  unfold duplicatedDependent
  have hpt : ∀ pr ∈ l.enum,
      (l.enum.any (fun q => decide (pr.1 ≠ q.1) && q.2.NISDEPENDEN == pr.2.NISDEPENDEN)) =
        decide (2 ≤ l.countP (fun y => y.NISDEPENDEN == pr.2.NISDEPENDEN)) := by
    rintro ⟨i, r⟩ hmem
    have hi : l.get? i = some r := List.mem_enum_iff_get?.mp hmem
    have hpr : (r.NISDEPENDEN == r.NISDEPENDEN) = true := beq_self_eq_true _
    rw [Bool.eq_iff_iff]
    rw [List.any_eq_true, decide_eq_true_eq]
    rw [two_le_countP_iff_exists_other (fun y => y.NISDEPENDEN == r.NISDEPENDEN) l i r hi hpr]
    constructor
    · rintro ⟨⟨j, q⟩, hq, hcond⟩
      rw [Bool.and_eq_true] at hcond
      rcases hcond with ⟨hne, hkey⟩
      refine ⟨j, q, ?_, List.mem_enum_iff_get?.mp hq, hkey⟩
      have := of_decide_eq_true hne
      omega
    · rintro ⟨j, q, hji, hj, hkey⟩
      refine ⟨(j, q), List.mem_enum_iff_get?.mpr hj, ?_⟩
      rw [Bool.and_eq_true]
      refine ⟨decide_eq_true ?_, hkey⟩
      omega
  rw [List.filter_congr hpt]
  have hfm := List.filter_map Prod.snd l.enum
    (p := fun r => decide (2 ≤ l.countP (fun y => y.NISDEPENDEN == r.NISDEPENDEN)))
  rw [List.enum_map_snd] at hfm
  exact hfm.symm

/-- **C1** (code bug).  The spec states the invariant that a dependent
national-ID appears in the dependent list of at most one Grant.  On the input
where ANA (NIS 1) and BEA (NIS 2) both claim dependent NIS 9, and Sislame
lists BEA as the mother and ANA as the designated responsible, the code grants
dependent 9 twice: `uniqBy` retains the first split-dependent row in the main
pool, where ANA's claim is accepted via the responsible-name match, and the
duplicate-resolution pass then also grants the dependent to mother BEA without
revising ANA's grant.  Two distinct grants end up containing dependent NIS
9. -/
theorem dependent_in_two_grants_on_split_input :
    ((runImport today0 1 [anaRow, beaRow] [sisJoaoRow] []).granted.countP
      (fun fam => fam.dependents.any (fun d => d.nis == "9"))) = 2 ∧
    ((runImport today0 1 [anaRow, beaRow] [sisJoaoRow] []).granted.map
      (fun fam => (fam.responsibleNis, fam.dependents.map (fun d => d.nis)))) =
      [("1", ["9"]), ("2", ["9"])] := by
  constructor
  · rfl
  · rfl

set_option maxRecDepth 8000 in
/-- **C2**, counterexample.  The claim says every split-dependent row is
excluded from the main unique-candidates pool.  In the two-claimant scenario
ANA's row is a split-dependent row (dependent NIS 9 is also claimed by BEA,
a distinct guardian), yet it remains a member of the `uniqBy`-deduplicated
main pool processed by the cross-reference resolver, because `uniqBy` keeps
the first occurrence of every key. -/
theorem split_row_remains_in_main_pool :
    parseRawFamily anaRow ∈ duplicatedDependent splitScenarioPool ∧
    parseRawFamily anaRow ∈ uniqBy splitScenarioPool (fun item => item.NISDEPENDEN) ∧
    parseRawFamily beaRow ∈ splitScenarioPool ∧
    (parseRawFamily beaRow).NISDEPENDEN = (parseRawFamily anaRow).NISDEPENDEN ∧
    (parseRawFamily beaRow).NISTITULAR ≠ (parseRawFamily anaRow).NISTITULAR := by
  refine ⟨by decide, by decide, by decide, by decide, by decide⟩

/-- **C3**, counterexample.  The claim says the number of accepted outcomes
plus rejection records equals the number of candidates after deduplication.
On the two-claimant split-dependent input there are 2 candidates after exact
deduplication, but 3 outcomes are produced (ANA's row is processed both by
the main pass and by the duplicate pass): 2 accepted dependents plus 1
rejection record. -/
theorem outcome_count_exceeds_dedup_count :
    depCount (runImport today0 1 [anaRow, beaRow] [sisJoaoRow] []).granted = 2 ∧
    (runImport today0 1 [anaRow, beaRow] [sisJoaoRow] []).audit.length = 1 ∧
    (dedupFamily (familyStructured [anaRow, beaRow])).length = 2 := by
  refine ⟨by rfl, by rfl, by rfl⟩

set_option maxRecDepth 8000 in
/-- **C4**, counterexample.  The claim says the wrong-guardian rejection
reason names the guardian found in the enrollment entry.  On the scenario
where the enrollment row has mother ANA SILVA but the same student name, the
row is rejected with the fixed message `homonymMsg`, and the string
"ANA SILVA" does not occur in that message. -/
theorem wrong_guardian_reason_names_no_guardian :
    (runImport today0 1 [mariaSilvaRow] [sisAnaSilvaRow] []).audit =
      [(parseRawFamily mariaSilvaRow, homonymMsg)] ∧
    ¬ ("ANA SILVA".data <:+: homonymMsg.data) := by
  refine ⟨by rfl, by decide⟩

/-- **C5**, counterexample.  The claim says the first matching role decides
*the* winner and every *other* claimant in the group is rejected with a
reason citing the winning guardian.  Here two distinct claimants (NIS 1 and
NIS 2, both named MARIA) share dependent NIS 9, both match the mother role of
the single enrollment row, and *neither* is rejected — the audit is empty and
both guardians receive grants (the first one even receives the dependent
twice, once from the main pass and once from the duplicate pass). -/
theorem duplicate_pass_multiple_winners_no_rejection :
    (runImport today0 1 [mariaRow1, mariaRow2] [sisMariaRow] []).audit = [] ∧
    ((runImport today0 1 [mariaRow1, mariaRow2] [sisMariaRow] []).granted.map
      (fun fam => (fam.responsibleNis, fam.dependents.map (fun d => d.nis)))) =
      [("1", ["9", "9"]), ("2", ["9"])] ∧
    (parseRawFamily mariaRow1).NISTITULAR ≠ (parseRawFamily mariaRow2).NISTITULAR := by
  refine ⟨by rfl, by rfl, by decide⟩

/-- **C10**, counterexample.  The claim says the winner's grant records are
parsed from the first row of the *pre-deduplication, pre-filter* benefit
dataset with the winner's guardian NIS.  Guardian NIS 2's first row in that
dataset is the VELHO row (dependent NIS 77), but that row is removed by the
age filter, so the code parses the PEDRO row (dependent NIS 5) instead: the
granted dependent is NIS 5, not NIS 77 (and also not the disputed NIS 9). -/
theorem dup_winner_record_from_filtered_first_row :
    ((runImport today0 1 [velhoRow, pedroRow, anaRow, mariaRow2] [sisMariaRow] []).granted.map
      (fun fam => (fam.responsibleNis, fam.dependents.map (fun d => d.nis)))) =
      [("2", ["5"])] ∧
    (parseFamilyAndSislameItems
      (((familyStructured [velhoRow, pedroRow, anaRow, mariaRow2]).find?
        (fun o => o.NISTITULAR == "2")).getD default)
      ((sislameStructured [sisMariaRow]).getD 0 default)).nis = "77" := by
  refine ⟨by rfl, by rfl⟩

/-- **C9** (confirmed).  Per-row conversion parses dates with the fixed
day/month/year format; an unparseable date yields `none` (the JS invalid
date, serialized as null) in the produced record, and the row is still
converted — the other fields are mapped as usual, and conversion never
rejects a row. -/
theorem unparseable_date_yields_none_and_row_kept :
    ∀ (f : FamilyItem) (s : SislameItem) (cityId : Nat),
      (parseDateDMY f.DTNASCTIT = none →
        (parseFamilyItem f cityId).responsibleBirthday = none) ∧
      (parseDateDMY f.DTNASCDEP = none →
        (parseFamilyAndSislameItems f s).birthday = none) ∧
      (parseFamilyItem f cityId).responsibleNis = f.NISTITULAR ∧
      (parseFamilyItem f cityId).responsibleName = f.TITULAR ∧
      (parseFamilyAndSislameItems f s).nis = f.NISDEPENDEN := by
  intro f s cityId
  refine ⟨fun h => ?_, fun h => ?_, rfl, rfl, rfl⟩
  · simp [parseFamilyItem, h]
  · simp [parseFamilyAndSislameItems, h]

/-- Witness for C9 at a concrete unparseable date. -/
theorem unparseable_date_yields_none_and_row_kept_witness :
    (parseDateDMY ("99/99/9999" : String) = none →
      (parseFamilyItem { DTNASCTIT := "99/99/9999", NISTITULAR := "1", TITULAR := "A" } 1).responsibleBirthday = none) ∧
    (parseFamilyItem { DTNASCTIT := "99/99/9999", NISTITULAR := "1", TITULAR := "A" } 1).responsibleBirthday = none := by
  have h := unparseable_date_yields_none_and_row_kept
    { DTNASCTIT := "99/99/9999", NISTITULAR := "1", TITULAR := "A" } default 1
  exact ⟨h.1, h.1 (by decide)⟩

/-- **C8** (confirmed).  Updating the progress report replaces the stored
report wholesale — the report read back is `storedReport r cityId`, built
from the new report alone (no field of any previously stored report occurs
in it) — and reading the report for a city with no stored report returns the
default report with status `idle` and `inProgress` `false`.  The
at-most-one-report-per-city hypothesis is the invariant of every reachable
registry state (updates erase before pushing). -/
theorem report_replace_and_default :
    ∀ (cityId : Nat) (l : List ImportReport) (r : ImportReport),
      (l.countP (fun it => it.cityId == some cityId) ≤ 1 →
        getImportReport cityId (updateImportReport r cityId l) = storedReport r cityId) ∧
      (l.countP (fun it => it.cityId == some cityId) = 0 →
        getImportReport cityId l =
          { status := .idle, cityId := some cityId, inProgress := some false }) := by
  intro cityId l r
  constructor
  · intro h
    exact getImportReport_update cityId r l h
  · intro h
    unfold getImportReport
    have hnone : l.find? (fun it => it.cityId == some cityId) = none := by
      rw [List.find?_eq_none]
      intro a ha
      have := (List.countP_eq_zero.mp h) a ha
      simpa using this
    rw [hnone]

/-- Witness for C8: a registry holding an older report for city 1 is
replaced wholesale (none of its fields survive), and an empty registry reads
back the idle default. -/
theorem report_replace_and_default_witness :
    (([{ status := ImportStatus.saving, message := some "old", cityId := some 1,
         inProgress := some true }] : List ImportReport).countP
        (fun it => it.cityId == some 1) ≤ 1 →
      getImportReport 1 (updateImportReport { status := .failed, message := some "new" } 1
        [{ status := ImportStatus.saving, message := some "old", cityId := some 1,
           inProgress := some true }]) =
        storedReport { status := .failed, message := some "new" } 1) ∧
    (([] : List ImportReport).countP (fun it => it.cityId == some 1) = 0 →
      getImportReport 1 ([] : List ImportReport) =
        { status := .idle, cityId := some 1, inProgress := some false }) := by
  exact ⟨(report_replace_and_default 1
      [{ status := ImportStatus.saving, message := some "old", cityId := some 1,
         inProgress := some true }] { status := .failed, message := some "new" }).1,
    (report_replace_and_default 1 [] { status := .failed, message := some "new" }).2⟩

/-- **C7** (confirmed).  When the first row of either dataset is missing a
required column, the import returns the thrown schema error before any
candidate row is filtered, compared, or persisted (no audit rows, no
grants), and the city's report reads back as `failed` with the message
listing the missing and the available columns (of whichever check failed
first: Sislame, then Bolsa Família). -/
theorem missing_columns_abort_import :
    ∀ (today : SDate) (cityId : Nat) (famRaw sisRaw : List RawRow)
      (reports0 : List ImportReport) (s0 f0 : RawRow),
      reports0.countP (fun it => it.cityId == some cityId) ≤ 1 →
      sisRaw.head? = some s0 → famRaw.head? = some f0 →
      (missingKeys requiredSislameKeys s0 ≠ [] ∨ missingKeys requiredFamilyKeys f0 ≠ []) →
      (runImport today cityId famRaw sisRaw reports0).error.isSome = true ∧
      (runImport today cityId famRaw sisRaw reports0).granted = [] ∧
      (runImport today cityId famRaw sisRaw reports0).audit = [] ∧
      (getImportReport cityId (runImport today cityId famRaw sisRaw reports0).reports).status =
        .failed ∧
      ((missingKeys requiredSislameKeys s0 ≠ [] ∧
        (getImportReport cityId (runImport today cityId famRaw sisRaw reports0).reports).message =
          some (schemaErrorMsg "Sislame" (missingKeys requiredSislameKeys s0) (rawKeys s0))) ∨
       (missingKeys requiredSislameKeys s0 = [] ∧
        (getImportReport cityId (runImport today cityId famRaw sisRaw reports0).reports).message =
          some (schemaErrorMsg "Bolsa Família" (missingKeys requiredFamilyKeys f0)
            (rawKeys f0)))) := by
  intro today cityId famRaw sisRaw reports0 s0 f0 hreg hs hf hmiss
  have h1 : (updateImportReport { status := .readingFiles } cityId reports0).countP
      (fun it => it.cityId == some cityId) = 1 :=
    countP_updateImportReport cityId _ reports0 hreg
  have h2 : (updateImportReport { status := .filteringData } cityId
      (updateImportReport { status := .readingFiles } cityId reports0)).countP
      (fun it => it.cityId == some cityId) = 1 :=
    countP_updateImportReport cityId _ _ (by omega)
  by_cases hsm : missingKeys requiredSislameKeys s0 = []
  · have hfm : missingKeys requiredFamilyKeys f0 ≠ [] := by
      rcases hmiss with h | h
      · exact absurd hsm h
      · exact h
    have hrun : runImport today cityId famRaw sisRaw reports0 =
        { granted := [], audit := [],
          reports := updateImportReport
            { status := .failed,
              message := some (schemaErrorMsg "Bolsa Família"
                (missingKeys requiredFamilyKeys f0) (rawKeys f0)),
              inProgress := some false } cityId
            (updateImportReport { status := .filteringData } cityId
              (updateImportReport { status := .readingFiles } cityId reports0)),
          error := some (schemaErrorMsg "Bolsa Família"
            (missingKeys requiredFamilyKeys f0) (rawKeys f0)) } := by
      have hfF : (missingKeys requiredFamilyKeys f0).isEmpty = false := by
        cases hcase : missingKeys requiredFamilyKeys f0 with
        | nil => exact absurd hcase hfm
        | cons a t => rfl
      unfold runImport checkRequiredSislameData checkRequiredFamilyData checkRequiredData
      rw [hs, hf]
      simp only [hsm, hfF, List.isEmpty_nil, if_true, Bool.false_eq_true, if_false]
    rw [hrun]
    refine ⟨rfl, rfl, rfl, ?_, ?_⟩
    · rw [getImportReport_update cityId _ _ (by omega)]
      rfl
    · right
      refine ⟨hsm, ?_⟩
      rw [getImportReport_update cityId _ _ (by omega)]
      rfl
  · have hrun : runImport today cityId famRaw sisRaw reports0 =
        { granted := [], audit := [],
          reports := updateImportReport
            { status := .failed,
              message := some (schemaErrorMsg "Sislame"
                (missingKeys requiredSislameKeys s0) (rawKeys s0)),
              inProgress := some false } cityId
            (updateImportReport { status := .filteringData } cityId
              (updateImportReport { status := .readingFiles } cityId reports0)),
          error := some (schemaErrorMsg "Sislame"
            (missingKeys requiredSislameKeys s0) (rawKeys s0)) } := by
      have hsF : (missingKeys requiredSislameKeys s0).isEmpty = false := by
        cases hcase : missingKeys requiredSislameKeys s0 with
        | nil => exact absurd hcase hsm
        | cons a t => rfl
      unfold runImport checkRequiredSislameData checkRequiredFamilyData checkRequiredData
      rw [hs]
      simp only [hsF, Bool.false_eq_true, if_false]
    rw [hrun]
    refine ⟨rfl, rfl, rfl, ?_, ?_⟩
    · rw [getImportReport_update cityId _ _ (by omega)]
      rfl
    · left
      refine ⟨hsm, ?_⟩
      rw [getImportReport_update cityId _ _ (by omega)]
      rfl

/-- Witness for C7: a Sislame first row with only `Aluno`/`Matricula`
aborts the import with the failed report. -/
theorem missing_columns_abort_import_witness :
    (runImport today0 1 [anaRow] [badSisRow] []).error.isSome = true ∧
    (runImport today0 1 [anaRow] [badSisRow] []).granted = [] ∧
    (runImport today0 1 [anaRow] [badSisRow] []).audit = [] ∧
    (getImportReport 1 (runImport today0 1 [anaRow] [badSisRow] []).reports).status = .failed ∧
    ((missingKeys requiredSislameKeys badSisRow ≠ [] ∧
      (getImportReport 1 (runImport today0 1 [anaRow] [badSisRow] []).reports).message =
        some (schemaErrorMsg "Sislame" (missingKeys requiredSislameKeys badSisRow)
          (rawKeys badSisRow))) ∨
     (missingKeys requiredSislameKeys badSisRow = [] ∧
      (getImportReport 1 (runImport today0 1 [anaRow] [badSisRow] []).reports).message =
        some (schemaErrorMsg "Bolsa Família" (missingKeys requiredFamilyKeys anaRow)
          (rawKeys anaRow)))) := by
  exact missing_columns_abort_import today0 1 [anaRow] [badSisRow] [] badSisRow anaRow
    (by decide) rfl rfl (Or.inl (by decide))

/-- Two distinct members satisfying `p` force `countP p` to be at least
two. -/
theorem two_le_countP_of_mem_of_mem {α : Type} (p : α → Bool) :
    ∀ (l : List α) (a b : α), a ∈ l → b ∈ l → a ≠ b → p a = true → p b = true →
      2 ≤ l.countP p := by
  intro l
  induction l with
  | nil =>
    intro a b ha
    simp at ha
  | cons x xs ih =>
    intro a b ha hb hab hpa hpb
    rcases List.mem_cons.mp ha with rfl | ha2
    · have hb2 : b ∈ xs := by
        rcases List.mem_cons.mp hb with rfl | hb2
        · exact absurd rfl hab
        · exact hb2
      rw [List.countP_cons_of_pos _ _ hpa]
      have : 0 < xs.countP p := List.countP_pos_iff.mpr ⟨b, hb2, hpb⟩
      omega
    · rcases List.mem_cons.mp hb with rfl | hb2
      · rw [List.countP_cons_of_pos _ _ hpb]
        have : 0 < xs.countP p := List.countP_pos_iff.mpr ⟨a, ha2, hpa⟩
        omega
      · have h2 := ih a b ha2 hb2 hab hpa hpb
        rw [List.countP_cons]
        omega

/-- **C2** (corrected).  Amended claim: every row whose dependent identity is
claimed by a second, distinct guardian is routed to the duplicate-resolution
pass (it is a member of the `duplicatedDependent` list, which the pass
consumes grouped by `NISDEPENDEN`); however such a row is *also kept* in the
main unique-candidates pool exactly when it is the first row of the pool
bearing its dependent identity — `uniqBy` retains the first occurrence of
every key, so the first claimant of each split dependent is processed by the
cross-reference resolver as well. -/
theorem split_rows_routed_and_first_kept :
    ∀ (l : List FamilyItem) (r r2 : FamilyItem),
      r ∈ l → r2 ∈ l → r2.NISDEPENDEN = r.NISDEPENDEN → r2.NISTITULAR ≠ r.NISTITULAR →
      r ∈ duplicatedDependent l ∧
      (r ∈ uniqBy l (fun item => item.NISDEPENDEN) ↔
        l.find? (fun y => y.NISDEPENDEN == r.NISDEPENDEN) = some r) := by
  intro l r r2 hr hr2 hkey hguard
  constructor
  · rw [duplicatedDependent_eq_filter]
    rw [List.mem_filter]
    refine ⟨hr, decide_eq_true ?_⟩
    have hne : r ≠ r2 := fun h => hguard (h ▸ rfl)
    exact two_le_countP_of_mem_of_mem _ l r r2 hr hr2 hne
      (beq_self_eq_true _) (by rw [hkey]; exact beq_self_eq_true _)
  · exact mem_uniqBy _ l r

/-- Witness for C2 at the two-claimant scenario: ANA's row is routed to the
duplicate pass and, being the first row with dependent NIS 9, stays in the
main pool. -/
theorem split_rows_routed_and_first_kept_witness :
    parseRawFamily anaRow ∈ duplicatedDependent splitScenarioPool ∧
    (parseRawFamily anaRow ∈ uniqBy splitScenarioPool (fun item => item.NISDEPENDEN) ↔
      splitScenarioPool.find?
        (fun y => y.NISDEPENDEN == (parseRawFamily anaRow).NISDEPENDEN) =
        some (parseRawFamily anaRow)) := by
  exact split_rows_routed_and_first_kept splitScenarioPool
    (parseRawFamily anaRow) (parseRawFamily beaRow)
    (by decide) (by decide) (by decide) (by decide)

/-! ### Success-path and audit-order lemmas -/

/-- When both required-column checks pass, the import runs the core pipeline
and ends with a `completed` report. -/
theorem runImport_success (today : SDate) (cityId : Nat) (famRaw sisRaw : List RawRow)
    (reports0 : List ImportReport) (hs : sislameSchemaOk sisRaw = true)
    (hf : familySchemaOk famRaw = true) :
    runImport today cityId famRaw sisRaw reports0 =
      { granted := (importCore today cityId (familyStructured famRaw)
          (sislameStructured sisRaw)
          (updateImportReport { status := .filteringData } cityId
            (updateImportReport { status := .readingFiles } cityId reports0))).granted,
        audit := (importCore today cityId (familyStructured famRaw)
          (sislameStructured sisRaw)
          (updateImportReport { status := .filteringData } cityId
            (updateImportReport { status := .readingFiles } cityId reports0))).audit,
        reports := updateImportReport { status := .completed, inProgress := some false } cityId
          (importCore today cityId (familyStructured famRaw) (sislameStructured sisRaw)
            (updateImportReport { status := .filteringData } cityId
              (updateImportReport { status := .readingFiles } cityId reports0))).reports,
        error := none } := by
  unfold sislameSchemaOk at hs
  unfold familySchemaOk at hf
  cases hhead : sisRaw.head? with
  | none =>
    rw [hhead] at hs
    cases hs
  | some s0 =>
    simp only [hhead] at hs
    cases hfhead : famRaw.head? with
    | none =>
      rw [hfhead] at hf
      cases hf
    | some f0 =>
      simp only [hfhead] at hf
      unfold runImport checkRequiredSislameData checkRequiredFamilyData checkRequiredData
      simp only [hhead, hfhead]
      rw [if_pos hs]
      simp only [hf, eq_self_iff_true, if_true]

/-- `mainStep` only appends to the audit. -/
theorem mainStep_audit_mono (today : SDate) (cityId : Nat) (oF : List FamilyItem)
    (oS sD : List SislameItem) (n : Nat) (st : PipeState) (i : Nat) (f : FamilyItem) :
    ∃ t, (mainStep today cityId oF oS sD n st i f).audit = st.audit ++ t := by
  cases hm : List.findIdx? (sislameMatches f) sD with
  | some si =>
    by_cases hv : validAge today ((sD[si]?.getD default).dataNascimento) = true
    · exact ⟨[], by simp [mainStep, hm, hv]⟩
    · exact ⟨[(f, sislameOverageMsg)], by simp [mainStep, hm, hv]⟩
  | none =>
    cases hn : List.find? (fun s => compareNames s.aluno f.DEPENDENTE) sD with
    | some s => exact ⟨[(f, homonymMsg)], by simp [mainStep, hm, hn]⟩
    | none => exact ⟨[(f, notInSislameMsg)], by simp [mainStep, hm, hn]⟩

/-- `mainLoop` only appends to the audit. -/
theorem mainLoop_audit_mono (today : SDate) (cityId : Nat) (oF : List FamilyItem)
    (oS sD : List SislameItem) (n : Nat) :
    ∀ (l : List FamilyItem) (i : Nat) (st : PipeState),
      ∃ t, (mainLoop today cityId oF oS sD n i l st).audit = st.audit ++ t := by
  intro l
  induction l with
  | nil =>
    intro i st
    exact ⟨[], by simp [mainLoop]⟩
  | cons f fs ih =>
    intro i st
    obtain ⟨t1, h1⟩ := mainStep_audit_mono today cityId oF oS sD n st i f
    obtain ⟨t2, h2⟩ := ih (i + 1) (mainStep today cityId oF oS sD n st i f)
    refine ⟨t1 ++ t2, ?_⟩
    rw [mainLoop, h2, h1, List.append_assoc]

/-- `dupMemberStep` only appends to the audit. -/
theorem dupMemberStep_audit_mono (today : SDate) (cityId : Nat) (oF : List FamilyItem)
    (oS : List SislameItem) (si : Nat) (s : SislameItem) (k : ParentKey)
    (st : PipeState) (f : FamilyItem) :
    ∃ t, (dupMemberStep today cityId oF oS si s k st f).audit = st.audit ++ t := by
  by_cases hc : compareNames (s.parentField k) f.TITULAR = true
  · by_cases hv : validAge today s.dataNascimento = true
    · exact ⟨[], by simp [dupMemberStep, hc, hv]⟩
    · exact ⟨[(f, sislameOverageMsg)], by simp [dupMemberStep, hc, hv]⟩
  · exact ⟨[(f, linkedToOtherMsg (s.parentField k))], by simp [dupMemberStep, hc]⟩

/-- The fold of `dupMemberStep` over a group only appends to the audit. -/
theorem dupFold_audit_mono (today : SDate) (cityId : Nat) (oF : List FamilyItem)
    (oS : List SislameItem) (si : Nat) (s : SislameItem) (k : ParentKey) :
    ∀ (group : List FamilyItem) (st : PipeState),
      ∃ t, (group.foldl (dupMemberStep today cityId oF oS si s k) st).audit =
        st.audit ++ t := by
  intro group
  induction group with
  | nil =>
    intro st
    exact ⟨[], by simp⟩
  | cons f fs ih =>
    intro st
    obtain ⟨t1, h1⟩ := dupMemberStep_audit_mono today cityId oF oS si s k st f
    obtain ⟨t2, h2⟩ := ih (dupMemberStep today cityId oF oS si s k st f)
    refine ⟨t1 ++ t2, ?_⟩
    rw [List.foldl_cons, h2, h1, List.append_assoc]

/-- `processGroup` only appends to the audit. -/
theorem processGroup_audit_mono (today : SDate) (cityId : Nat) (oF : List FamilyItem)
    (oS sD : List SislameItem) (head : FamilyItem) (group : List FamilyItem)
    (st : PipeState) :
    ∃ t, (processGroup today cityId oF oS sD head group st).audit = st.audit ++ t := by
  cases hm : findParentMatch sD head group with
  | none =>
    exact ⟨group.map (fun f => (f, notInSislameMsg)), by simp [processGroup, hm]⟩
  | some ksi =>
    obtain ⟨k, si⟩ := ksi
    obtain ⟨t, ht⟩ := dupFold_audit_mono today cityId oF oS si (sD.getD si default) k group st
    exact ⟨t, by rw [processGroup, hm]; exact ht⟩

/-- The duplicate-resolution loop only appends to the audit. -/
theorem dupPassAux_audit_mono (today : SDate) (cityId : Nat) (oF : List FamilyItem)
    (oS sD : List SislameItem) :
    ∀ (fuel : Nat) (dup : List FamilyItem) (st : PipeState),
      ∃ t, (dupPassAux today cityId oF oS sD fuel dup st).audit = st.audit ++ t := by
  intro fuel
  induction fuel with
  | zero =>
    intro dup st
    cases dup with
    | nil => exact ⟨[], by simp [dupPassAux]⟩
    | cons d0 tl => exact ⟨[], by simp [dupPassAux]⟩
  | succ fuel ih =>
    intro dup st
    cases dup with
    | nil => exact ⟨[], by simp [dupPassAux]⟩
    | cons d0 tl =>
      obtain ⟨t1, h1⟩ := processGroup_audit_mono today cityId oF oS sD d0
        ((d0 :: tl).filter (fun x => x.NISDEPENDEN == d0.NISDEPENDEN)) st
      obtain ⟨t2, h2⟩ := ih (tl.filter (fun x => !(x.NISDEPENDEN == d0.NISDEPENDEN)))
        (processGroup today cityId oF oS sD d0
          ((d0 :: tl).filter (fun x => x.NISDEPENDEN == d0.NISDEPENDEN)) st)
      refine ⟨t1 ++ t2, ?_⟩
      rw [dupPassAux, h2, h1, List.append_assoc]

/-- The audit of the core pipeline starts with the age-filter rejections, in
order, each with the of-age reason, before any record produced by the
comparison passes. -/
theorem importCore_audit_prefix (today : SDate) (cityId : Nat)
    (origFam0 : List FamilyItem) (origSis0 : List SislameItem)
    (reports : List ImportReport) :
    ∃ rest, (importCore today cityId origFam0 origSis0 reports).audit =
      ((removedFamiliesOf today origFam0).map (fun r => (r, ofAgeMsg))) ++ rest := by
  obtain ⟨t1, h1⟩ := mainLoop_audit_mono today cityId (familyPoolPreDeburr today origFam0)
    (dedupSislame origSis0) (sislamePoolDeburred origSis0)
    (mainPool today origFam0).length (mainPool today origFam0) 0
    { granted := [],
      audit := (removedFamiliesOf today origFam0).map (fun r => (r, ofAgeMsg)),
      reports := reports }
  obtain ⟨t2, h2⟩ := dupPassAux_audit_mono today cityId (familyPoolPreDeburr today origFam0)
    (dedupSislame origSis0) (sislamePoolDeburred origSis0)
    (splitRows today origFam0).length (splitRows today origFam0)
    (mainLoop today cityId (familyPoolPreDeburr today origFam0) (dedupSislame origSis0)
      (sislamePoolDeburred origSis0) (mainPool today origFam0).length 0
      (mainPool today origFam0)
      { granted := [],
        audit := (removedFamiliesOf today origFam0).map (fun r => (r, ofAgeMsg)),
        reports := reports })
  refine ⟨t1 ++ t2, ?_⟩
  rw [importCore]
  rw [dupPass]
  rw [h2, h1, List.append_assoc]

/-- **C6** (confirmed).  The eligibility filter keeps a benefit candidate iff
the whole-year difference between the start of the current month and the
dependent's (parseable) birthdate is strictly below 18; every removed row
fails the age guard and is written to the audit with the of-age reason; and
in the import's final audit these of-age rejections form the prefix, written
before any record produced by the cross-reference passes. -/
theorem eligibility_filter_iff_under18_and_precedes_resolution :
    ∀ (today : SDate) (cityId : Nat) (famRaw sisRaw : List RawRow)
      (reports0 : List ImportReport) (r : FamilyItem) (b : SDate),
      r ∈ dedupFamily (familyStructured famRaw) →
      parseDateDMY r.DTNASCDEP = some b →
      (r ∈ familyPoolPreDeburr today (familyStructured famRaw) ↔
        yearsBetween (startOfMonth today) b < 18) ∧
      (∀ x, x ∈ removedFamiliesOf today (familyStructured famRaw) →
        validAge today x.DTNASCDEP = false) ∧
      (sislameSchemaOk sisRaw = true → familySchemaOk famRaw = true →
        ∃ rest, (runImport today cityId famRaw sisRaw reports0).audit =
          ((removedFamiliesOf today (familyStructured famRaw)).map
            (fun x => (x, ofAgeMsg))) ++ rest) := by
  intro today cityId famRaw sisRaw reports0 r b hr hb
  refine ⟨?_, ?_, ?_⟩
  · rw [familyPoolPreDeburr, filterFamilies, List.mem_filter]
    constructor
    · rintro ⟨hmem, hvalid⟩
      rw [validAge, hb] at hvalid
      exact of_decide_eq_true hvalid
    · intro hlt
      refine ⟨hr, ?_⟩
      rw [validAge, hb]
      exact decide_eq_true hlt
  · intro x hx
    rw [removedFamiliesOf, filterFamilies, List.mem_filter] at hx
    rcases hx with ⟨hmem, hneg⟩
    cases hcase : validAge today x.DTNASCDEP with
    | false => rfl
    | true =>
      rw [hcase] at hneg
      cases hneg
  · intro hs hf
    rw [runImport_success today cityId famRaw sisRaw reports0 hs hf]
    exact importCore_audit_prefix today cityId (familyStructured famRaw)
      (sislameStructured sisRaw) _

/-- Witness for C6 at a concrete input: ANA's young dependent passes the
filter, VELHO's of-age row is removed, and the audit starts with the of-age
rejections. -/
theorem eligibility_filter_iff_under18_and_precedes_resolution_witness :
    (parseRawFamily anaRow ∈
        familyPoolPreDeburr today0 (familyStructured [anaRow, velhoRow]) ↔
      yearsBetween (startOfMonth today0) ⟨2015, 1, 1⟩ < 18) ∧
    (∀ x, x ∈ removedFamiliesOf today0 (familyStructured [anaRow, velhoRow]) →
      validAge today0 x.DTNASCDEP = false) ∧
    (sislameSchemaOk [sisJoaoRow] = true → familySchemaOk [anaRow, velhoRow] = true →
      ∃ rest, (runImport today0 1 [anaRow, velhoRow] [sisJoaoRow] []).audit =
        ((removedFamiliesOf today0 (familyStructured [anaRow, velhoRow])).map
          (fun x => (x, ofAgeMsg))) ++ rest) := by
  exact eligibility_filter_iff_under18_and_precedes_resolution today0 1
    [anaRow, velhoRow] [sisJoaoRow] [] (parseRawFamily anaRow) ⟨2015, 1, 1⟩
    (by decide) (by decide)

/-- The main loop splits over list append (the running index advances by the
length of the prefix). -/
theorem mainLoop_append (today : SDate) (cityId : Nat) (oF : List FamilyItem)
    (oS sD : List SislameItem) (n : Nat) :
    ∀ (l1 l2 : List FamilyItem) (i : Nat) (st : PipeState),
      mainLoop today cityId oF oS sD n i (l1 ++ l2) st =
        mainLoop today cityId oF oS sD n (i + l1.length) l2
          (mainLoop today cityId oF oS sD n i l1 st) := by
  intro l1
  induction l1 with
  | nil =>
    intro l2 i st
    simp [mainLoop]
  | cons f fs ih =>
    intro l2 i st
    rw [List.cons_append, mainLoop, ih, mainLoop]
    have harith : i + 1 + fs.length = i + (f :: fs).length := by
      rw [List.length_cons]
      omega
    rw [harith]

/-- When the full dependent-plus-guardian scan fails but a name-only match
exists, the main step writes exactly the fixed homonym message for the
row. -/
theorem mainStep_homonym (today : SDate) (cityId : Nat) (oF : List FamilyItem)
    (oS sD : List SislameItem) (n : Nat) (st : PipeState) (i : Nat) (r : FamilyItem)
    (s : SislameItem) (hm : sD.findIdx? (sislameMatches r) = none)
    (hn : sD.find? (fun si => compareNames si.aluno r.DEPENDENTE) = some s) :
    (mainStep today cityId oF oS sD n st i r).audit = st.audit ++ [(r, homonymMsg)] := by
  simp [mainStep, hm, hn]

/-- **C4** (corrected).  Amended claim: a benefit candidate of the main pool
that fails the full dependent-plus-guardian scan, but for which some
enrollment entry matches on dependent name alone, is rejected with the
*fixed* homonym message (`homonymMsg`, which notes a same-named student with
a different guardian but does not name that guardian). -/
theorem wrong_guardian_rejected_with_fixed_message :
    ∀ (today : SDate) (cityId : Nat) (famRaw sisRaw : List RawRow)
      (reports0 : List ImportReport) (r : FamilyItem) (s : SislameItem),
      sislameSchemaOk sisRaw = true → familySchemaOk famRaw = true →
      r ∈ mainPool today (familyStructured famRaw) →
      (sislamePoolDeburred (sislameStructured sisRaw)).findIdx? (sislameMatches r) = none →
      (sislamePoolDeburred (sislameStructured sisRaw)).find?
        (fun si => compareNames si.aluno r.DEPENDENTE) = some s →
      (r, homonymMsg) ∈ (runImport today cityId famRaw sisRaw reports0).audit := by
  intro today cityId famRaw sisRaw reports0 r s hs hf hr hm hn
  rw [runImport_success today cityId famRaw sisRaw reports0 hs hf]
  obtain ⟨l1, l2, hsplit⟩ := List.append_of_mem hr
  rw [importCore, hsplit]
  rw [mainLoop_append, mainLoop]
  obtain ⟨t2, h2⟩ := mainLoop_audit_mono today cityId
    (familyPoolPreDeburr today (familyStructured famRaw))
    (dedupSislame (sislameStructured sisRaw))
    (sislamePoolDeburred (sislameStructured sisRaw)) (l1 ++ r :: l2).length
    l2 (0 + l1.length + 1) _
  obtain ⟨t3, h3⟩ := dupPassAux_audit_mono today cityId
    (familyPoolPreDeburr today (familyStructured famRaw))
    (dedupSislame (sislameStructured sisRaw))
    (sislamePoolDeburred (sislameStructured sisRaw))
    (splitRows today (familyStructured famRaw)).length
    (splitRows today (familyStructured famRaw)) _
  rw [dupPass, h3, h2]
  rw [mainStep_homonym today cityId
    (familyPoolPreDeburr today (familyStructured famRaw))
    (dedupSislame (sislameStructured sisRaw))
    (sislamePoolDeburred (sislameStructured sisRaw)) (l1 ++ r :: l2).length
    _ (0 + l1.length) r s hm hn]
  simp [List.mem_append]

/-- Witness for C4 at the MARIA SILVA / ANA SILVA scenario. -/
theorem wrong_guardian_rejected_with_fixed_message_witness :
    (parseRawFamily mariaSilvaRow, homonymMsg) ∈
      (runImport today0 1 [mariaSilvaRow] [sisAnaSilvaRow] []).audit := by
  exact wrong_guardian_rejected_with_fixed_message today0 1 [mariaSilvaRow]
    [sisAnaSilvaRow] [] (parseRawFamily mariaSilvaRow)
    (parseRawSislame sisAnaSilvaRow) (by decide) (by decide) (by decide)
    (by decide) (by decide)

/-! ### Grant-count and duplicate-group lemmas -/

/-- Appending a dependent to the grant at a valid index raises the total
dependent count by one. -/
theorem depCount_modifyIdx_add (dep : Dependent) :
    ∀ (granted : List Family) (i : Nat), i < granted.length →
      depCount (modifyIdx granted i
        (fun fam => { fam with dependents := fam.dependents ++ [dep] })) =
        depCount granted + 1 := by
  intro granted
  induction granted with
  | nil =>
    intro i hi
    simp at hi
  | cons g gs ih =>
    intro i hi
    cases i with
    | zero =>
      simp [modifyIdx, depCount]
      omega
    | succ j =>
      have hj : j < gs.length := by
        simp at hi
        omega
      have := ih j hj
      simp [modifyIdx, depCount] at this ⊢
      omega

/-- `pushDependent` adds exactly one dependent record to the grant list. -/
theorem depCount_pushDependent (cityId : Nat) (sourceRow : FamilyItem) (dep : Dependent)
    (matchNis : String) (granted : List Family) :
    depCount (pushDependent cityId sourceRow dep matchNis granted) =
      depCount granted + 1 := by
  unfold pushDependent
  cases hIdx : granted.findIdx? (fun fam => fam.responsibleNis == matchNis) with
  | none =>
    simp [depCount]
  | some i =>
    have hi : i < granted.length :=
      (List.findIdx?_eq_some_iff_findIdx_eq.mp hIdx).1
    exact depCount_modifyIdx_add dep granted i hi

/-- The audit rows written by one duplicate-group member step. -/
theorem dupMemberStep_audit_eq (today : SDate) (cityId : Nat) (oF : List FamilyItem)
    (oS : List SislameItem) (si : Nat) (s : SislameItem) (k : ParentKey)
    (st : PipeState) (f : FamilyItem) :
    (dupMemberStep today cityId oF oS si s k st f).audit =
      st.audit ++ (dupRejectMsg today s k f).toList := by
  by_cases hc : compareNames (s.parentField k) f.TITULAR = true
  · by_cases hv : validAge today s.dataNascimento = true
    · simp [dupMemberStep, dupRejectMsg, hc, hv]
    · simp [dupMemberStep, dupRejectMsg, hc, hv]
  · simp [dupMemberStep, dupRejectMsg, hc]

/-- The dependents granted by one duplicate-group member step. -/
theorem dupMemberStep_depCount (today : SDate) (cityId : Nat) (oF : List FamilyItem)
    (oS : List SislameItem) (si : Nat) (s : SislameItem) (k : ParentKey)
    (st : PipeState) (f : FamilyItem) :
    depCount (dupMemberStep today cityId oF oS si s k st f).granted =
      depCount st.granted + (if dupAccepts today s k f then 1 else 0) := by
  by_cases hc : compareNames (s.parentField k) f.TITULAR = true
  · by_cases hv : validAge today s.dataNascimento = true
    · simp [dupMemberStep, dupAccepts, hc, hv, depCount_pushDependent]
    · simp [dupMemberStep, dupAccepts, hc, hv]
  · simp [dupMemberStep, dupAccepts, hc]

/-- Folding the member step over a group appends exactly the per-member
rejection records, in group order. -/
theorem dupFold_audit_eq (today : SDate) (cityId : Nat) (oF : List FamilyItem)
    (oS : List SislameItem) (si : Nat) (s : SislameItem) (k : ParentKey) :
    ∀ (group : List FamilyItem) (st : PipeState),
      (group.foldl (dupMemberStep today cityId oF oS si s k) st).audit =
        st.audit ++ group.filterMap (dupRejectMsg today s k) := by
  intro group
  induction group with
  | nil =>
    intro st
    simp
  | cons f fs ih =>
    intro st
    rw [List.foldl_cons, ih, dupMemberStep_audit_eq, List.filterMap_cons]
    cases hmsg : dupRejectMsg today s k f with
    | none => simp
    | some m => simp

/-- Folding the member step over a group grants exactly the matching,
age-valid members. -/
theorem dupFold_depCount (today : SDate) (cityId : Nat) (oF : List FamilyItem)
    (oS : List SislameItem) (si : Nat) (s : SislameItem) (k : ParentKey) :
    ∀ (group : List FamilyItem) (st : PipeState),
      depCount (group.foldl (dupMemberStep today cityId oF oS si s k) st).granted =
        depCount st.granted + group.countP (dupAccepts today s k) := by
  intro group
  induction group with
  | nil =>
    intro st
    simp
  | cons f fs ih =>
    intro st
    rw [List.foldl_cons, ih, dupMemberStep_depCount, List.countP_cons]
    omega

/-- The role search returns the first role, in the fixed priority order
mother → designated responsible → father, whose Sislame scan succeeds,
together with the index that scan found. -/
theorem findParentMatch_priority (sD : List SislameItem) (d0 : FamilyItem)
    (group : List FamilyItem) (k : ParentKey) (si : Nat)
    (hm : findParentMatch sD d0 group = some (k, si)) :
    sD.findIdx? (rolePred d0 group k) = some si ∧
    ∀ k2 ∈ sislamePossibleKeys.takeWhile (fun x => x ≠ k),
      sD.findIdx? (rolePred d0 group k2) = none := by
  unfold findParentMatch sislamePossibleKeys findParentMatchAux at hm
  cases h1 : sD.findIdx? (rolePred d0 group ParentKey.mae) with
  | some i1 =>
    simp only [h1] at hm
    cases hm
    have htw : sislamePossibleKeys.takeWhile (fun x => x ≠ ParentKey.mae) = [] := by decide
    rw [htw]
    exact ⟨h1, by intro k2 hk2; cases hk2⟩
  | none =>
    simp only [h1] at hm
    unfold findParentMatchAux at hm
    cases h2 : sD.findIdx? (rolePred d0 group ParentKey.nomeResponsavel) with
    | some i2 =>
      simp only [h2] at hm
      cases hm
      have htw : sislamePossibleKeys.takeWhile (fun x => x ≠ ParentKey.nomeResponsavel) =
          [ParentKey.mae] := by decide
      rw [htw]
      refine ⟨h2, ?_⟩
      intro k2 hk2
      rcases List.mem_singleton.mp hk2 with rfl
      exact h1
    | none =>
      simp only [h2] at hm
      unfold findParentMatchAux at hm
      cases h3 : sD.findIdx? (rolePred d0 group ParentKey.pai) with
      | some i3 =>
        simp only [h3] at hm
        cases hm
        have htw : sislamePossibleKeys.takeWhile (fun x => x ≠ ParentKey.pai) =
            [ParentKey.mae, ParentKey.nomeResponsavel] := by decide
        rw [htw]
        refine ⟨h3, ?_⟩
        intro k2 hk2
        rcases List.mem_cons.mp hk2 with rfl | hk2b
        · exact h1
        · rcases List.mem_singleton.mp hk2b with rfl
          exact h2
      | none =>
        simp only [h3] at hm
        unfold findParentMatchAux at hm
        cases hm

/-- **C5** (corrected).  Amended claim: the duplicate-resolution pass tries
the guardian roles in the fixed order mother, designated responsible, father,
and uses the first role whose Sislame scan (same dependent name, some
claimant matching the role's guardian name) succeeds.  Then *every* claimant
in the group whose guardian name matches the found enrollment row's name for
that role is granted (subject to the enrollment-side age check) — there can
be several such winners — and every claimant that does not match is rejected
citing the enrollment row's guardian name for that role; when no role yields
a match, every claimant in the group is rejected as not found in Sislame. -/
theorem duplicate_pass_group_resolution :
    ∀ (today : SDate) (cityId : Nat) (oF : List FamilyItem) (oS sD : List SislameItem)
      (d0 : FamilyItem) (group : List FamilyItem) (st : PipeState),
      (findParentMatch sD d0 group = none →
        processGroup today cityId oF oS sD d0 group st =
          { st with audit := st.audit ++ group.map (fun f => (f, notInSislameMsg)) }) ∧
      (∀ (k : ParentKey) (si : Nat), findParentMatch sD d0 group = some (k, si) →
        (sD.findIdx? (rolePred d0 group k) = some si ∧
          ∀ k2 ∈ sislamePossibleKeys.takeWhile (fun x => x ≠ k),
            sD.findIdx? (rolePred d0 group k2) = none) ∧
        (processGroup today cityId oF oS sD d0 group st).audit =
          st.audit ++ group.filterMap (dupRejectMsg today (sD.getD si default) k) ∧
        depCount (processGroup today cityId oF oS sD d0 group st).granted =
          depCount st.granted + group.countP (dupAccepts today (sD.getD si default) k)) := by
  intro today cityId oF oS sD d0 group st
  constructor
  · intro hm
    rw [processGroup, hm]
  · intro k si hm
    refine ⟨findParentMatch_priority sD d0 group k si hm, ?_, ?_⟩
    · rw [processGroup, hm]
      exact dupFold_audit_eq today cityId oF oS si (sD.getD si default) k group st
    · rw [processGroup, hm]
      exact dupFold_depCount today cityId oF oS si (sD.getD si default) k group st

/-- Witness for C5 at the two-MARIA scenario: the mother role is found first
and both claimants match it. -/
theorem duplicate_pass_group_resolution_witness :
    ((sislamePoolDeburred (sislameStructured [sisMariaRow])).findIdx?
        (rolePred (parseRawFamily mariaRow1)
          [parseRawFamily mariaRow1, parseRawFamily mariaRow2] ParentKey.mae) = some 0 ∧
      ∀ k2 ∈ sislamePossibleKeys.takeWhile (fun x => x ≠ ParentKey.mae),
        (sislamePoolDeburred (sislameStructured [sisMariaRow])).findIdx?
          (rolePred (parseRawFamily mariaRow1)
            [parseRawFamily mariaRow1, parseRawFamily mariaRow2] k2) = none) ∧
    (processGroup today0 1 [] [] (sislamePoolDeburred (sislameStructured [sisMariaRow]))
        (parseRawFamily mariaRow1)
        [parseRawFamily mariaRow1, parseRawFamily mariaRow2]
        { granted := [], audit := [], reports := [] }).audit =
      ([] : List (FamilyItem × String)) ++
        [parseRawFamily mariaRow1, parseRawFamily mariaRow2].filterMap
          (dupRejectMsg today0
            ((sislamePoolDeburred (sislameStructured [sisMariaRow])).getD 0 default)
            ParentKey.mae) ∧
    depCount (processGroup today0 1 [] [] (sislamePoolDeburred (sislameStructured [sisMariaRow]))
        (parseRawFamily mariaRow1)
        [parseRawFamily mariaRow1, parseRawFamily mariaRow2]
        { granted := [], audit := [], reports := [] }).granted =
      depCount ([] : List Family) +
        [parseRawFamily mariaRow1, parseRawFamily mariaRow2].countP
          (dupAccepts today0
            ((sislamePoolDeburred (sislameStructured [sisMariaRow])).getD 0 default)
            ParentKey.mae) := by
  exact (duplicate_pass_group_resolution today0 1 [] []
    (sislamePoolDeburred (sislameStructured [sisMariaRow]))
    (parseRawFamily mariaRow1)
    [parseRawFamily mariaRow1, parseRawFamily mariaRow2]
    { granted := [], audit := [], reports := [] }).2 ParentKey.mae 0 (by decide)

/-! ### Provenance of granted dependent records -/

/-- Dependents of a cons grant list. -/
theorem allDeps_cons (g : Family) (gs : List Family) :
    allDeps (g :: gs) = g.dependents ++ allDeps gs := by
  simp [allDeps]

/-- A dependent found after the in-place grant update is either an old one or
the appended record. -/
theorem mem_allDeps_modifyIdx (dep : Dependent) (d : Dependent) :
    ∀ (granted : List Family) (i : Nat),
      d ∈ allDeps (modifyIdx granted i
        (fun fam => { fam with dependents := fam.dependents ++ [dep] })) →
      d ∈ allDeps granted ∨ d = dep := by
  intro granted
  induction granted with
  | nil =>
    intro i hd
    simp [modifyIdx, allDeps] at hd
  | cons g gs ih =>
    intro i hd
    cases i with
    | zero =>
      rw [modifyIdx, allDeps_cons] at hd
      rcases List.mem_append.mp hd with hd1 | hd2
      · rcases List.mem_append.mp hd1 with hd3 | hd4
        · left
          rw [allDeps_cons]
          exact List.mem_append_left _ hd3
        · right
          exact List.mem_singleton.mp hd4
      · left
        rw [allDeps_cons]
        exact List.mem_append_right _ hd2
    | succ j =>
      rw [modifyIdx, allDeps_cons] at hd
      rcases List.mem_append.mp hd with hd1 | hd2
      · left
        rw [allDeps_cons]
        exact List.mem_append_left _ hd1
      · rcases ih j hd2 with hd3 | hd4
        · left
          rw [allDeps_cons]
          exact List.mem_append_right _ hd3
        · right
          exact hd4

/-- A dependent found after `pushDependent` is either an old one or the
pushed record. -/
theorem mem_allDeps_pushDependent (cityId : Nat) (sourceRow : FamilyItem)
    (dep : Dependent) (matchNis : String) (granted : List Family) (d : Dependent)
    (hd : d ∈ allDeps (pushDependent cityId sourceRow dep matchNis granted)) :
    d ∈ allDeps granted ∨ d = dep := by
  unfold pushDependent at hd
  cases hIdx : granted.findIdx? (fun fam => fam.responsibleNis == matchNis) with
  | none =>
    rw [hIdx] at hd
    rw [allDeps, List.map_append, List.flatten_append] at hd
    rcases List.mem_append.mp hd with hd1 | hd2
    · left
      exact hd1
    · right
      simp [allDeps] at hd2
      exact hd2
  | some i =>
    rw [hIdx] at hd
    exact mem_allDeps_modifyIdx dep d granted i hd

/-- Dependents granted by a main-loop step are parsed from the indexed rows
of the pre-deburr pools. -/
theorem mainStep_deps (today : SDate) (cityId : Nat) (oF : List FamilyItem)
    (oS sD : List SislameItem) (n : Nat) (st : PipeState) (i : Nat) (f : FamilyItem)
    (d : Dependent) (hd : d ∈ allDeps (mainStep today cityId oF oS sD n st i f).granted) :
    d ∈ allDeps st.granted ∨
    ∃ j si, d = parseFamilyAndSislameItems (oF.getD j default) (oS.getD si default) := by
  unfold mainStep at hd
  cases hm : List.findIdx? (sislameMatches f) sD with
  | some si =>
    simp only [hm] at hd
    by_cases hv : validAge today ((sD[si]?.getD default).dataNascimento) = true
    · rw [if_neg (by simp [hv])] at hd
      rcases mem_allDeps_pushDependent _ _ _ _ _ _ hd with hd1 | hd2
      · exact Or.inl hd1
      · exact Or.inr ⟨i, si, hd2⟩
    · rw [if_pos (by simp [Bool.eq_false_iff.mpr hv])] at hd
      exact Or.inl hd
  | none =>
    simp only [hm] at hd
    cases hn : List.find? (fun s => compareNames s.aluno f.DEPENDENTE) sD with
    | some s =>
      simp only [hn] at hd
      exact Or.inl hd
    | none =>
      simp only [hn] at hd
      exact Or.inl hd

/-- Dependents granted by the main loop are parsed from the indexed rows of
the pre-deburr pools. -/
theorem mainLoop_deps (today : SDate) (cityId : Nat) (oF : List FamilyItem)
    (oS sD : List SislameItem) (n : Nat) :
    ∀ (l : List FamilyItem) (i : Nat) (st : PipeState) (d : Dependent),
      d ∈ allDeps (mainLoop today cityId oF oS sD n i l st).granted →
      d ∈ allDeps st.granted ∨
      ∃ j si, d = parseFamilyAndSislameItems (oF.getD j default) (oS.getD si default) := by
  intro l
  induction l with
  | nil =>
    intro i st d hd
    rw [mainLoop] at hd
    exact Or.inl hd
  | cons f fs ih =>
    intro i st d hd
    rw [mainLoop] at hd
    rcases ih (i + 1) _ d hd with hd1 | hd2
    · exact mainStep_deps today cityId oF oS sD n st i f d hd1
    · exact Or.inr hd2

/-- Dependents granted by a duplicate-group member step are parsed from the
first pre-deburr benefit row carrying the winner's guardian NIS. -/
theorem dupMemberStep_deps (today : SDate) (cityId : Nat) (oF : List FamilyItem)
    (oS : List SislameItem) (si : Nat) (s : SislameItem) (k : ParentKey)
    (st : PipeState) (f : FamilyItem) (d : Dependent)
    (hd : d ∈ allDeps (dupMemberStep today cityId oF oS si s k st f).granted) :
    d ∈ allDeps st.granted ∨
    ∃ nis si2, d = parseFamilyAndSislameItems
      ((oF.find? (fun o => o.NISTITULAR == nis)).getD default) (oS.getD si2 default) := by
  unfold dupMemberStep at hd
  by_cases hc : compareNames (s.parentField k) f.TITULAR = true
  · rw [if_pos hc] at hd
    by_cases hv : validAge today s.dataNascimento = true
    · rw [if_neg (by simp [hv])] at hd
      rcases mem_allDeps_pushDependent _ _ _ _ _ _ hd with hd1 | hd2
      · exact Or.inl hd1
      · exact Or.inr ⟨f.NISTITULAR, si, hd2⟩
    · rw [if_pos (by simp [Bool.eq_false_iff.mpr hv])] at hd
      exact Or.inl hd
  · rw [if_neg hc] at hd
    exact Or.inl hd

/-- Dependents granted by the duplicate-group fold are parsed from the first
pre-deburr benefit row carrying the winner's guardian NIS. -/
theorem dupFold_deps (today : SDate) (cityId : Nat) (oF : List FamilyItem)
    (oS : List SislameItem) (si : Nat) (s : SislameItem) (k : ParentKey) :
    ∀ (group : List FamilyItem) (st : PipeState) (d : Dependent),
      d ∈ allDeps (group.foldl (dupMemberStep today cityId oF oS si s k) st).granted →
      d ∈ allDeps st.granted ∨
      ∃ nis si2, d = parseFamilyAndSislameItems
        ((oF.find? (fun o => o.NISTITULAR == nis)).getD default)
        (oS.getD si2 default) := by
  intro group
  induction group with
  | nil =>
    intro st d hd
    exact Or.inl hd
  | cons f fs ih =>
    intro st d hd
    rw [List.foldl_cons] at hd
    rcases ih _ d hd with hd1 | hd2
    · exact dupMemberStep_deps today cityId oF oS si s k st f d hd1
    · exact Or.inr hd2

/-- Dependents granted while resolving one duplicate group are parsed from
the first pre-deburr benefit row carrying the winner's guardian NIS. -/
theorem processGroup_deps (today : SDate) (cityId : Nat) (oF : List FamilyItem)
    (oS sD : List SislameItem) (head : FamilyItem) (group : List FamilyItem)
    (st : PipeState) (d : Dependent)
    (hd : d ∈ allDeps (processGroup today cityId oF oS sD head group st).granted) :
    d ∈ allDeps st.granted ∨
    ∃ nis si2, d = parseFamilyAndSislameItems
      ((oF.find? (fun o => o.NISTITULAR == nis)).getD default)
      (oS.getD si2 default) := by
  unfold processGroup at hd
  cases hm : findParentMatch sD head group with
  | none =>
    rw [hm] at hd
    exact Or.inl hd
  | some ksi =>
    obtain ⟨k, si⟩ := ksi
    rw [hm] at hd
    exact dupFold_deps today cityId oF oS si (sD.getD si default) k group st d hd

/-- Dependents granted during the whole duplicate-resolution pass are parsed
from the first pre-deburr benefit row carrying the winner's guardian NIS. -/
theorem dupPassAux_deps (today : SDate) (cityId : Nat) (oF : List FamilyItem)
    (oS sD : List SislameItem) :
    ∀ (fuel : Nat) (dup : List FamilyItem) (st : PipeState) (d : Dependent),
      d ∈ allDeps (dupPassAux today cityId oF oS sD fuel dup st).granted →
      d ∈ allDeps st.granted ∨
      ∃ nis si2, d = parseFamilyAndSislameItems
        ((oF.find? (fun o => o.NISTITULAR == nis)).getD default)
        (oS.getD si2 default) := by
  intro fuel
  induction fuel with
  | zero =>
    intro dup st d hd
    cases dup with
    | nil => exact Or.inl hd
    | cons d0 tl => exact Or.inl hd
  | succ fuel ih =>
    intro dup st d hd
    cases dup with
    | nil => exact Or.inl hd
    | cons d0 tl =>
      rw [dupPassAux] at hd
      rcases ih _ _ d hd with hd1 | hd2
      · exact processGroup_deps today cityId oF oS sD d0 _ st d hd1
      · exact Or.inr hd2

/-- **C10** (corrected).  Amended claim: every dependent record in the final
grant list is parsed with `parseFamilyAndSislameItems` from rows of the
*exact-deduplicated, age-filtered* benefit dataset (`familyPoolPreDeburr`) —
not the pre-deduplication, pre-filter dataset — paired with the deduplicated
enrollment dataset: main-pass records come from the row at the loop index,
and duplicate-pass records come from the *first* row of that filtered dataset
whose guardian NIS equals the winner's, so when that guardian has several
surviving rows the record used may be the row of a different dependent than
the disputed one. -/
theorem dup_pass_dependents_from_guardian_first_filtered_row :
    ∀ (today : SDate) (cityId : Nat) (famRaw sisRaw : List RawRow)
      (reports0 : List ImportReport) (d : Dependent),
      sislameSchemaOk sisRaw = true → familySchemaOk famRaw = true →
      d ∈ allDeps (runImport today cityId famRaw sisRaw reports0).granted →
      (∃ j si, d = parseFamilyAndSislameItems
        ((familyPoolPreDeburr today (familyStructured famRaw)).getD j default)
        ((dedupSislame (sislameStructured sisRaw)).getD si default)) ∨
      (∃ nis si, d = parseFamilyAndSislameItems
        (((familyPoolPreDeburr today (familyStructured famRaw)).find?
          (fun o => o.NISTITULAR == nis)).getD default)
        ((dedupSislame (sislameStructured sisRaw)).getD si default)) := by
  intro today cityId famRaw sisRaw reports0 d hs hf hd
  rw [runImport_success today cityId famRaw sisRaw reports0 hs hf] at hd
  rw [importCore, dupPass] at hd
  rcases dupPassAux_deps today cityId (familyPoolPreDeburr today (familyStructured famRaw))
    (dedupSislame (sislameStructured sisRaw)) (sislamePoolDeburred (sislameStructured sisRaw))
    _ _ _ d hd with hd1 | hd2
  · rcases mainLoop_deps today cityId (familyPoolPreDeburr today (familyStructured famRaw))
      (dedupSislame (sislameStructured sisRaw)) (sislamePoolDeburred (sislameStructured sisRaw))
      _ _ _ _ d hd1 with hd3 | hd4
    · simp [allDeps] at hd3
    · exact Or.inl hd4
  · exact Or.inr hd2

/-- Witness for C10 at the VELHO/PEDRO scenario: the single granted
dependent record (PEDRO, NIS 5) is obtained via the guardian-NIS find on the
age-filtered dataset. -/
theorem dup_pass_dependents_from_guardian_first_filtered_row_witness :
    (∃ j si, parseFamilyAndSislameItems (parseRawFamily pedroRow)
        (parseRawSislame sisMariaRow) = parseFamilyAndSislameItems
        ((familyPoolPreDeburr today0
          (familyStructured [velhoRow, pedroRow, anaRow, mariaRow2])).getD j default)
        ((dedupSislame (sislameStructured [sisMariaRow])).getD si default)) ∨
    (∃ nis si, parseFamilyAndSislameItems (parseRawFamily pedroRow)
        (parseRawSislame sisMariaRow) = parseFamilyAndSislameItems
        (((familyPoolPreDeburr today0
          (familyStructured [velhoRow, pedroRow, anaRow, mariaRow2])).find?
          (fun o => o.NISTITULAR == nis)).getD default)
        ((dedupSislame (sislameStructured [sisMariaRow])).getD si default)) := by
  exact dup_pass_dependents_from_guardian_first_filtered_row today0 1
    [velhoRow, pedroRow, anaRow, mariaRow2] [sisMariaRow] []
    (parseFamilyAndSislameItems (parseRawFamily pedroRow) (parseRawSislame sisMariaRow))
    (by decide) (by decide) (by decide)

/-! ### Outcome counting -/

/-- A filter and its negation partition a list's length. -/
theorem length_filter_add_length_filter_not {α : Type} (p : α → Bool) :
    ∀ (l : List α), (l.filter p).length + (l.filter (fun x => !p x)).length = l.length := by
  intro l
  induction l with
  | nil => rfl
  | cons x xs ih =>
    cases hx : p x with
    | true =>
      simp [List.filter_cons, hx]
      omega
    | false =>
      simp only [List.filter_cons, hx]
      simp only [Bool.not_false, if_true, Bool.false_eq_true, if_false, List.length_cons]
      omega

/-- Each member of a duplicate group produces exactly one outcome: either a
rejection record or a granted dependent. -/
theorem dupOutcome_partition (today : SDate) (s : SislameItem) (k : ParentKey) :
    ∀ (group : List FamilyItem),
      (group.filterMap (dupRejectMsg today s k)).length +
        group.countP (dupAccepts today s k) = group.length := by
  intro group
  induction group with
  | nil => rfl
  | cons f fs ih =>
    by_cases hc : compareNames (s.parentField k) f.TITULAR = true
    · by_cases hv : validAge today s.dataNascimento = true
      · simp only [List.filterMap_cons, List.countP_cons, dupRejectMsg, dupAccepts, hc, hv,
          if_true, Bool.and_self, List.length_cons]
        simp only [dupRejectMsg, hc, hv, if_true] at ih ⊢
        omega
      · have hv2 : validAge today s.dataNascimento = false := Bool.eq_false_iff.mpr hv
        simp only [List.filterMap_cons, List.countP_cons, dupRejectMsg, dupAccepts, hc, hv2,
          if_true, Bool.false_eq_true, if_false, Bool.and_false, List.length_cons]
        omega
    · have hc2 : compareNames (s.parentField k) f.TITULAR = false := Bool.eq_false_iff.mpr hc
      simp only [List.filterMap_cons, List.countP_cons, dupRejectMsg, dupAccepts, hc2,
        Bool.false_eq_true, if_false, Bool.false_and, List.length_cons]
      omega

/-- Each main-loop iteration produces exactly one outcome. -/
theorem mainStep_measure (today : SDate) (cityId : Nat) (oF : List FamilyItem)
    (oS sD : List SislameItem) (n : Nat) (st : PipeState) (i : Nat) (f : FamilyItem) :
    depCount (mainStep today cityId oF oS sD n st i f).granted +
      (mainStep today cityId oF oS sD n st i f).audit.length =
    depCount st.granted + st.audit.length + 1 := by
  cases hm : List.findIdx? (sislameMatches f) sD with
  | some si =>
    by_cases hv : validAge today ((sD[si]?.getD default).dataNascimento) = true
    · simp [mainStep, hm, hv, depCount_pushDependent]
      omega
    · simp [mainStep, hm, hv]
      omega
  | none =>
    cases hn : List.find? (fun s => compareNames s.aluno f.DEPENDENTE) sD with
    | some s =>
      simp [mainStep, hm, hn]
      omega
    | none =>
      simp [mainStep, hm, hn]
      omega

/-- The main loop produces exactly one outcome per pool row. -/
theorem mainLoop_measure (today : SDate) (cityId : Nat) (oF : List FamilyItem)
    (oS sD : List SislameItem) (n : Nat) :
    ∀ (l : List FamilyItem) (i : Nat) (st : PipeState),
      depCount (mainLoop today cityId oF oS sD n i l st).granted +
        (mainLoop today cityId oF oS sD n i l st).audit.length =
      depCount st.granted + st.audit.length + l.length := by
  intro l
  induction l with
  | nil =>
    intro i st
    simp [mainLoop]
  | cons f fs ih =>
    intro i st
    rw [mainLoop]
    rw [ih (i + 1) (mainStep today cityId oF oS sD n st i f)]
    rw [mainStep_measure]
    simp only [List.length_cons]
    omega

/-- Resolving one duplicate group produces exactly one outcome per group
member. -/
theorem processGroup_measure (today : SDate) (cityId : Nat) (oF : List FamilyItem)
    (oS sD : List SislameItem) (head : FamilyItem) (group : List FamilyItem)
    (st : PipeState) :
    depCount (processGroup today cityId oF oS sD head group st).granted +
      (processGroup today cityId oF oS sD head group st).audit.length =
    depCount st.granted + st.audit.length + group.length := by
  cases hm : findParentMatch sD head group with
  | none =>
    rw [processGroup, hm]
    simp
    omega
  | some ksi =>
    obtain ⟨k, si⟩ := ksi
    rw [processGroup, hm]
    rw [dupFold_audit_eq, dupFold_depCount]
    rw [List.length_append]
    have := dupOutcome_partition today (sD.getD si default) k group
    omega

/-- The duplicate-resolution loop produces exactly one outcome per pending
row (with sufficient fuel). -/
theorem dupPassAux_measure (today : SDate) (cityId : Nat) (oF : List FamilyItem)
    (oS sD : List SislameItem) :
    ∀ (fuel : Nat) (dup : List FamilyItem) (st : PipeState), dup.length ≤ fuel →
      depCount (dupPassAux today cityId oF oS sD fuel dup st).granted +
        (dupPassAux today cityId oF oS sD fuel dup st).audit.length =
      depCount st.granted + st.audit.length + dup.length := by
  intro fuel
  induction fuel with
  | zero =>
    intro dup st hfuel
    cases dup with
    | nil => simp [dupPassAux]
    | cons d0 tl => simp at hfuel
  | succ fuel ih =>
    intro dup st hfuel
    cases dup with
    | nil => simp [dupPassAux]
    | cons d0 tl =>
      rw [dupPassAux]
      have hpd0 : (d0.NISDEPENDEN == d0.NISDEPENDEN) = true := beq_self_eq_true _
      have hgroup : (d0 :: tl).filter (fun x => x.NISDEPENDEN == d0.NISDEPENDEN) =
          d0 :: tl.filter (fun x => x.NISDEPENDEN == d0.NISDEPENDEN) :=
        List.filter_cons_of_pos hpd0
      have hpart := length_filter_add_length_filter_not
        (fun x => x.NISDEPENDEN == d0.NISDEPENDEN) tl
      have hrest : (tl.filter (fun x => !(x.NISDEPENDEN == d0.NISDEPENDEN))).length ≤ fuel := by
        have := List.length_filter_le (fun x => !(x.NISDEPENDEN == d0.NISDEPENDEN)) tl
        simp only [List.length_cons] at hfuel
        omega
      rw [ih _ _ hrest]
      rw [processGroup_measure]
      rw [hgroup]
      simp only [List.length_cons]
      omega

/-- The length of the `uniqBy` accumulator result counts the distinct unseen
keys. -/
theorem length_uniqByAux {α β : Type} [BEq β] [LawfulBEq β] [DecidableEq β] (f : α → β) :
    ∀ (l : List α) (seen : List β),
      (uniqByAux f seen l).length = ((l.map f).toFinset \ seen.toFinset).card := by
  intro l
  induction l with
  | nil =>
    intro seen
    simp [uniqByAux]
  | cons x xs ih =>
    intro seen
    by_cases hx : seen.contains (f x) = true
    · have hmem : f x ∈ seen.toFinset := by
        rw [List.mem_toFinset]
        simpa using hx
      rw [uniqByAux, if_pos hx, ih, List.map_cons, List.toFinset_cons,
        Finset.insert_sdiff_of_mem _ hmem]
    · have hnot : f x ∉ seen.toFinset := by
        rw [List.mem_toFinset]
        intro hc
        exact hx (by simpa using hc)
      rw [uniqByAux, if_neg hx, List.length_cons, ih, List.map_cons, List.toFinset_cons,
        List.toFinset_cons, Finset.insert_sdiff_of_not_mem _ hnot, Finset.sdiff_insert]
      by_cases hfx : f x ∈ (xs.map f).toFinset \ seen.toFinset
      · rw [Finset.insert_eq_self.mpr hfx]
        exact Finset.card_erase_add_one hfx
      · rw [Finset.erase_eq_of_not_mem hfx, Finset.card_insert_of_not_mem hfx]

/-- `uniqBy` keeps one element per distinct key. -/
theorem length_uniqBy {α β : Type} [BEq β] [LawfulBEq β] [DecidableEq β]
    (f : α → β) (l : List α) :
    (uniqBy l f).length = (l.map f).toFinset.card := by
  rw [uniqBy, length_uniqByAux]
  simp

/-- The distinct dependent identities of the split rows are the identities
with at least two rows. -/
theorem splitKeys_toFinset (l : List FamilyItem) :
    ((l.filter (fun r =>
        decide (2 ≤ l.countP (fun y => y.NISDEPENDEN == r.NISDEPENDEN)))).map
      (fun r => r.NISDEPENDEN)).toFinset =
    ((l.map (fun r => r.NISDEPENDEN)).toFinset).filter
      (fun k => 2 ≤ l.countP (fun y => y.NISDEPENDEN == k)) := by
  ext k
  simp only [List.mem_toFinset, List.mem_map, List.mem_filter, Finset.mem_filter]
  constructor
  · rintro ⟨r, ⟨hr, hcnt⟩, hrk⟩
    subst hrk
    exact ⟨⟨r, hr, rfl⟩, of_decide_eq_true hcnt⟩
  · rintro ⟨⟨r, hr, hrk⟩, hcnt⟩
    subst hrk
    exact ⟨r, ⟨hr, decide_eq_true hcnt⟩, rfl⟩

/-- The distinct dependent identities of the single-occurrence rows are the
identities with exactly one row. -/
theorem singleKeys_toFinset (l : List FamilyItem) :
    ((l.filter (fun r =>
        decide (l.countP (fun y => y.NISDEPENDEN == r.NISDEPENDEN) = 1))).map
      (fun r => r.NISDEPENDEN)).toFinset =
    ((l.map (fun r => r.NISDEPENDEN)).toFinset).filter
      (fun k => l.countP (fun y => y.NISDEPENDEN == k) = 1) := by
  ext k
  simp only [List.mem_toFinset, List.mem_map, List.mem_filter, Finset.mem_filter]
  constructor
  · rintro ⟨r, ⟨hr, hcnt⟩, hrk⟩
    subst hrk
    exact ⟨⟨r, hr, rfl⟩, of_decide_eq_true hcnt⟩
  · rintro ⟨⟨r, hr, hrk⟩, hcnt⟩
    subst hrk
    exact ⟨r, ⟨hr, decide_eq_true hcnt⟩, rfl⟩

/-- The keys of the single-occurrence rows are pairwise distinct. -/
theorem nodup_single_keys (l : List FamilyItem) :
    ((l.filter (fun r =>
        decide (l.countP (fun y => y.NISDEPENDEN == r.NISDEPENDEN) = 1))).map
      (fun r => r.NISDEPENDEN)).Nodup := by
  rw [List.nodup_iff_count_le_one]
  intro a
  rw [List.count_eq_countP, List.countP_map]
  have hcomp : ((fun x => x == a) ∘ fun r : FamilyItem => r.NISDEPENDEN) =
      (fun r : FamilyItem => r.NISDEPENDEN == a) := rfl
  rw [hcomp]
  have hsub : (l.filter (fun r =>
      decide (l.countP (fun y => y.NISDEPENDEN == r.NISDEPENDEN) = 1))).countP
      (fun r => r.NISDEPENDEN == a) ≤
      l.countP (fun r => r.NISDEPENDEN == a) :=
    List.Sublist.countP_le _ (List.filter_sublist l)
  by_cases hex : ∃ r, r ∈ l.filter (fun r =>
      decide (l.countP (fun y => y.NISDEPENDEN == r.NISDEPENDEN) = 1)) ∧
      r.NISDEPENDEN = a
  · obtain ⟨r, hrf, hra⟩ := hex
    have hone : l.countP (fun y => y.NISDEPENDEN == r.NISDEPENDEN) = 1 :=
      of_decide_eq_true (List.mem_filter.mp hrf).2
    rw [hra] at hone
    omega
  · have hzero : (l.filter (fun r =>
        decide (l.countP (fun y => y.NISDEPENDEN == r.NISDEPENDEN) = 1))).countP
        (fun r => r.NISDEPENDEN == a) = 0 := by
      rw [List.countP_eq_zero]
      intro r hr hpr
      exact hex ⟨r, hr, eq_of_beq hpr⟩
    omega

/-- Double counting: the main pool (one row per distinct identity) plus the
split rows exceed the deduplicated pool by exactly one row per distinct
split identity. -/
theorem uniqBy_add_duplicated_length (l : List FamilyItem) :
    (uniqBy l (fun item => item.NISDEPENDEN)).length + (duplicatedDependent l).length =
      l.length + splitIdCount l := by
  have hA := length_uniqBy (fun item : FamilyItem => item.NISDEPENDEN) l
  have hB := duplicatedDependent_eq_filter l
  have hcnt1 : ∀ r ∈ l, 1 ≤ l.countP (fun y => y.NISDEPENDEN == r.NISDEPENDEN) := by
    intro r hr
    have : 0 < l.countP (fun y => y.NISDEPENDEN == r.NISDEPENDEN) :=
      List.countP_pos_iff.mpr ⟨r, hr, beq_self_eq_true _⟩
    omega
  have hC : (l.filter (fun r =>
        decide (2 ≤ l.countP (fun y => y.NISDEPENDEN == r.NISDEPENDEN)))).length +
      (l.filter (fun r =>
        decide (l.countP (fun y => y.NISDEPENDEN == r.NISDEPENDEN) = 1))).length =
      l.length := by
    have hpart := length_filter_add_length_filter_not
      (fun r => decide (2 ≤ l.countP (fun y => y.NISDEPENDEN == r.NISDEPENDEN))) l
    have hcongr : l.filter (fun r =>
        !decide (2 ≤ l.countP (fun y => y.NISDEPENDEN == r.NISDEPENDEN))) =
        l.filter (fun r =>
          decide (l.countP (fun y => y.NISDEPENDEN == r.NISDEPENDEN) = 1)) := by
      apply List.filter_congr
      intro r hr
      have h1 := hcnt1 r hr
      by_cases h2 : 2 ≤ l.countP (fun y => y.NISDEPENDEN == r.NISDEPENDEN)
      · have h3 : ¬(l.countP (fun y => y.NISDEPENDEN == r.NISDEPENDEN) = 1) := by omega
        simp [h2, h3]
      · have h3 : l.countP (fun y => y.NISDEPENDEN == r.NISDEPENDEN) = 1 := by omega
        simp [h2, h3]
    rw [hcongr] at hpart
    exact hpart
  have hD := Finset.filter_card_add_filter_neg_card_eq_card
    (fun k => 2 ≤ l.countP (fun y => y.NISDEPENDEN == k))
    (s := (l.map (fun r => r.NISDEPENDEN)).toFinset)
  have hE : ((l.map (fun r => r.NISDEPENDEN)).toFinset).filter
      (fun k => ¬ 2 ≤ l.countP (fun y => y.NISDEPENDEN == k)) =
      ((l.map (fun r => r.NISDEPENDEN)).toFinset).filter
        (fun k => l.countP (fun y => y.NISDEPENDEN == k) = 1) := by
    apply Finset.filter_congr
    intro k hk
    rw [List.mem_toFinset, List.mem_map] at hk
    obtain ⟨r, hr, hrk⟩ := hk
    subst hrk
    have h1 := hcnt1 r hr
    constructor
    · intro hnot
      omega
    · intro hone
      omega
  have hF : (((l.map (fun r => r.NISDEPENDEN)).toFinset).filter
      (fun k => l.countP (fun y => y.NISDEPENDEN == k) = 1)).card =
      (l.filter (fun r =>
        decide (l.countP (fun y => y.NISDEPENDEN == r.NISDEPENDEN) = 1))).length := by
    rw [← singleKeys_toFinset]
    rw [List.toFinset_card_of_nodup (nodup_single_keys l)]
    rw [List.length_map]
  have hG : splitIdCount l = (((l.map (fun r => r.NISDEPENDEN)).toFinset).filter
      (fun k => 2 ≤ l.countP (fun y => y.NISDEPENDEN == k))).card := by
    rw [splitIdCount, hB, splitKeys_toFinset]
  rw [hE] at hD
  rw [hA, hB, hG]
  omega

/-- **C3** (corrected).  Amended claim: every benefit candidate surviving the
exact deduplication receives exactly one terminal outcome *except the first
row of each split-dependent group, which receives two* (one from the main
pass and one from the duplicate-resolution pass); hence the number of
accepted dependents plus the number of rejection records equals the number
of candidates after deduplication *plus the number of distinct split
dependent identities*. -/
theorem outcome_count_eq_dedup_plus_split_ids :
    ∀ (today : SDate) (cityId : Nat) (famRaw sisRaw : List RawRow)
      (reports0 : List ImportReport),
      sislameSchemaOk sisRaw = true → familySchemaOk famRaw = true →
      depCount (runImport today cityId famRaw sisRaw reports0).granted +
        (runImport today cityId famRaw sisRaw reports0).audit.length =
      (dedupFamily (familyStructured famRaw)).length +
        splitIdCount (familyPoolDeburred today (familyStructured famRaw)) := by
  intro today cityId famRaw sisRaw reports0 hs hf
  rw [runImport_success today cityId famRaw sisRaw reports0 hs hf]
  rw [importCore, dupPass]
  rw [dupPassAux_measure today cityId _ _ _ _ _ _ (Nat.le_refl _)]
  rw [mainLoop_measure]
  have hst0 : depCount ([] : List Family) = 0 := rfl
  have haudit0 : ((removedFamiliesOf today (familyStructured famRaw)).map
      (fun r => (r, ofAgeMsg))).length =
      (removedFamiliesOf today (familyStructured famRaw)).length := List.length_map _ _
  have hcomb := uniqBy_add_duplicated_length (familyPoolDeburred today (familyStructured famRaw))
  have hmlen : (familyPoolDeburred today (familyStructured famRaw)).length =
      (familyPoolPreDeburr today (familyStructured famRaw)).length := by
    rw [familyPoolDeburred, List.length_map]
  have hpart : (familyPoolPreDeburr today (familyStructured famRaw)).length +
      (removedFamiliesOf today (familyStructured famRaw)).length =
      (dedupFamily (familyStructured famRaw)).length := by
    rw [familyPoolPreDeburr, removedFamiliesOf, filterFamilies]
    exact length_filter_add_length_filter_not _ _
  unfold mainPool splitRows
  simp only [hst0, haudit0]
  omega

/-- Witness for C3: the concrete two-claimant scenario satisfies the amended
equation (3 outcomes = 2 candidates + 1 split identity). -/
theorem outcome_count_eq_dedup_plus_split_ids_witness :
    depCount (runImport today0 1 [anaRow, beaRow] [sisJoaoRow] []).granted +
      (runImport today0 1 [anaRow, beaRow] [sisJoaoRow] []).audit.length =
    (dedupFamily (familyStructured [anaRow, beaRow])).length +
      splitIdCount (familyPoolDeburred today0 (familyStructured [anaRow, beaRow])) := by
  exact outcome_count_eq_dedup_plus_split_ids today0 1 [anaRow, beaRow] [sisJoaoRow] []
    (by decide) (by decide)

end FamiliesModel
